import Mathlib

/-!
Verification development for the XAI explanation engine of the
audio-deepfake / lung-lesion detection repository.

Shallow embedding conventions:
* numpy float arrays are modelled with exact rationals (`ℚ`); `float32`
  rounding is not modelled, so all range/shape/fallback facts are exact.
* a 2-D array is `Mat := List (List ℚ)`; a 3-D array is
  `Cube := List (List (List ℚ))` (H rows of W pixels of C channels).
* numpy dtype is tracked with the tag `Dty` (`u8` for `np.uint8`,
  `f32` for floating dtypes); `astype(np.uint8)` on clipped non-negative
  values is truncation, modelled with `Int.floor`.
* code that can raise returns `Except PyErr`.
* third-party numeric frameworks (tensorflow / cv2 / lime / shap) are the
  external collaborators of the spec; where one of their values enters a
  code path under verification it is passed in as a parameter, and
  `tf.image.resize` is modelled by an explicit bilinear formula (only its
  output shape matters to the claims below).
-/

/-- Numpy dtype tag: `u8` stands for `np.uint8`, `f32` for the float dtypes. -/
inductive Dty where
  | u8 : Dty
  | f32 : Dty
deriving DecidableEq

/-- A 2-D numeric array (heatmap / grayscale image). -/
abbrev Mat : Type := List (List ℚ)

/-- A 3-D numeric array (H rows, W pixels, C channels). -/
abbrev Cube : Type := List (List (List ℚ))

/-- A 4-D numeric array (batch, H, W, C), as produced by the gradient tape. -/
abbrev Tensor4 : Type := List (List (List (List ℚ)))

/-- A 3-D image together with its numpy dtype tag. -/
structure Img3 where
  data : Cube
  dtype : Dty
deriving DecidableEq

/-- A raw input image as accepted by `XaiHelpers.ensure_rgb`: grayscale 2-D
or channelled 3-D, with a dtype tag. -/
inductive NpImage where
  | gray (m : Mat) (dt : Dty) : NpImage
  | color (t : Cube) (dt : Dty) : NpImage
deriving DecidableEq

/-- Python exception classes that the embedded code paths can raise. -/
inductive PyErr where
  | valueError (msg : String) : PyErr
  | runtimeError (msg : String) : PyErr
  | httpException (status : Nat) (msg : String) : PyErr
  | other (msg : String) : PyErr
deriving DecidableEq

/-- Message carried by an exception (used by the HTTP error envelope). -/
def PyErr.message : PyErr → String
  | .valueError m => m
  | .runtimeError m => m
  | .httpException _ m => m
  | .other m => m

/-- np.clip of a scalar: clamp `v` into `[lo, hi]`. -/
def npClip (v lo hi : ℚ) : ℚ := min hi (max lo v)

/-- Minimum of a numpy array's entries (`x.min()`), 0 on the empty array. -/
def npMin : List ℚ → ℚ
  | [] => 0
  | x :: xs => xs.foldl min x

/-- Maximum of a numpy array's entries (`x.max()`), 0 on the empty array. -/
def npMax : List ℚ → ℚ
  | [] => 0
  | x :: xs => xs.foldl max x

/-- All entries of a 2-D array. -/
def matEntries (m : Mat) : List ℚ := m.flatten

/-- Shape of a (rectangular) 2-D array. -/
def matShape (m : Mat) : Nat × Nat := (m.length, (m.headD []).length)

/-- Rectangularity of a 2-D array: every row has the first row's length. -/
def matRect (m : Mat) : Prop := ∀ row ∈ m, row.length = (m.headD []).length

instance (m : Mat) : Decidable (matRect m) := by
  unfold matRect; infer_instance

/-- All entries of a 3-D array. -/
def cubeEntries (t : Cube) : List ℚ := (t.map List.flatten).flatten

/-- Spatial (H, W) shape of a (rectangular) 3-D array. -/
def cubeShape (t : Cube) : Nat × Nat := (t.length, (t.headD []).length)

/-- Length of the last axis of a (rectangular) 3-D array (`shape[-1]`). -/
def lastDim (t : Cube) : Nat := ((t.headD []).headD []).length

/-- Rectangularity of a 3-D array. -/
def cubeRect (t : Cube) : Prop :=
  (∀ row ∈ t, row.length = (t.headD []).length) ∧
    ∀ row ∈ t, ∀ px ∈ row, px.length = lastDim t

instance (t : Cube) : Decidable (cubeRect t) := by
  unfold cubeRect; infer_instance

/-- The all-zero 2-D array of the same shape (`np.zeros_like`). -/
def zerosLike (m : Mat) : Mat := m.map (fun row => row.map (fun _ => (0 : ℚ)))

/-- Numpy percentile with the default linear interpolation: sort ascending,
take the value at fractional index `q / 100 * (n - 1)`, interpolating
linearly between the two neighbouring order statistics.  Total function;
it agrees with `np.percentile` for `0 ≤ q ≤ 100` on a non-empty array. -/
def npPercentile (l : List ℚ) (q : ℚ) : ℚ :=
  let s := l.insertionSort (· ≤ ·)
  if s.length = 0 then 0
  else
    let m : Nat := s.length - 1
    let pos : ℚ := q * m / 100
    let i : Nat := min m (Int.toNat ⌊pos⌋)
    let j : Nat := min m (i + 1)
    s.getD i 0 + (pos - (i : ℚ)) * (s.getD j 0 - s.getD i 0)

/-- First index of the maximal entry (`tf.argmax` / `np.argmax` tie rule). -/
def argmaxAux : List ℚ → Nat → Nat → ℚ → Nat
  | [], _, best, _ => best
  | x :: xs, i, best, bv =>
    if bv < x then argmaxAux xs (i + 1) i x else argmaxAux xs (i + 1) best bv

/-- `np.argmax` over a 1-D array: index of the first maximal entry. -/
def argmaxFirst : List ℚ → Nat
  | [] => 0
  | x :: xs => argmaxAux xs 1 0 x

/- ------------------------------------------------------------------ -/
/- Audio service: deepfake_audio_detection/libs/detector/xai/helpers.py -/
/- ------------------------------------------------------------------ -/

/-- `OverlayConfig` (audio service `overlay_config.py`): immutable overlay
parameters with defaults `alpha_max = 0.70`, `alpha_min = 0.05`,
`clip_percentile = 99.0`. -/
structure OverlayConfig where
  alpha_max : ℚ := 7 / 10
  alpha_min : ℚ := 1 / 20
  clip_percentile : ℚ := 99
deriving DecidableEq

/-- Step 4 of `XaiHelpers.ensure_rgb` (audio helpers): validate that the
final shape is (H,W,3), otherwise raise ValueError. -/
def ensureRgbStep4 (t2 : Cube) : Except PyErr Cube :=
  if lastDim t2 = 3 then .ok t2
  else .error (.valueError "Expected image with shape (H,W,3)")

/-- Step 3 of `ensure_rgb`: drop the alpha channel of an RGBA image, then
validate. -/
def ensureRgbStep3 (t1 : Cube) : Except PyErr Cube :=
  if lastDim t1 = 4 then
    ensureRgbStep4 (t1.map (fun row => row.map (fun px => px.take 3)))
  else ensureRgbStep4 t1

/-- Steps 2-4 of `ensure_rgb`: concatenate an (H,W,1) image to 3 channels,
then continue with the RGBA and validation steps. -/
def ensureRgbSteps (t0 : Cube) : Except PyErr Cube :=
  if lastDim t0 = 1 then
    ensureRgbStep3 (t0.map (fun row => row.map (fun px => px ++ px ++ px)))
  else ensureRgbStep3 t0

/-- `XaiHelpers.ensure_rgb`, image-level entry: a 2-D grayscale array is
first stacked into (H,W,3); the dtype is untouched. -/
def ensureRgb (image : NpImage) : Except PyErr Img3 :=
  match image with
  | .gray m dt =>
    (ensureRgbSteps (m.map (fun row => row.map (fun v => [v, v, v])))).map
      (fun t => { data := t, dtype := dt })
  | .color t dt => (ensureRgbSteps t).map (fun t2 => { data := t2, dtype := dt })

/-- `XaiHelpers.as_float01` (audio helpers): cast to float32; if the maximum
entry exceeds 1 divide by 255; clip into `[0, 1]`. -/
def asFloat01 (img : Img3) : Img3 :=
  let mx := npMax (cubeEntries img.data)
  let d :=
    if 1 < mx then
      img.data.map (fun row => row.map (fun px => px.map (fun v => v / 255)))
    else img.data
  { data := d.map (fun row => row.map (fun px => px.map (fun v => npClip v 0 1))),
    dtype := .f32 }

/-- `XaiHelpers.ensure_rgb_uint8` (audio helpers): ensure RGB; pass through
uint8 unchanged; otherwise scale a `[0,1]`-ranged image by 255, clip to
`[0, 255]` and truncate to uint8.  (`x.max()` on a size-0 array raises.) -/
def ensureRgbUint8 (image : NpImage) : Except PyErr Img3 := do
  let img ← ensureRgb image
  if img.dtype = .u8 then
    return img
  match cubeEntries img.data with
  | [] => .error (.valueError "zero-size array reduction has no identity")
  | e :: es =>
    let mxv := es.foldl max e
    let x := if mxv ≤ 1 then
        img.data.map (fun row => row.map (fun px => px.map (fun v => v * 255)))
      else img.data
    let d := x.map (fun row => row.map (fun px => px.map
      (fun v => ((⌊npClip v 0 255⌋ : ℤ) : ℚ))))
    return { data := d, dtype := .u8 }

/-- `XaiHelpers.normalize_01` (audio helpers): min-max normalization with an
`eps = 1e-8` denominator guard; the empty array is returned unchanged. -/
def normalize_01 (m : Mat) (eps : ℚ := 1 / 10 ^ 8) : Mat :=
  if (matEntries m).length = 0 then m
  else
    m.map (fun row => row.map (fun v =>
      (v - npMin (matEntries m)) / (npMax (matEntries m) - npMin (matEntries m) + eps)))

/-- Absolute values of the flattened heatmap (`np.abs(h).reshape(-1)`). -/
def absFlat (heat : Mat) : List ℚ := (matEntries heat).map (fun v => |v|)

/-- The percentile clipping threshold used by `clip_and_normalize_signed`:
the `clip_percentile`-th percentile of `|heat|`. -/
def clipThreshold (heat : Mat) (clipPercentile : ℚ) : ℚ :=
  npPercentile (absFlat heat) clipPercentile

/-- `XaiHelpers.clip_and_normalize_signed` (audio helpers): empty input is
returned as-is; a threshold `≤ 1e-12` yields the all-zero array; otherwise
entries are clipped to `[-thr, thr]` and divided by `thr + 1e-8`. -/
def clipAndNormalizeSigned (heat : Mat) (clipPercentile : ℚ := 99) : Mat :=
  if (absFlat heat).length = 0 then heat
  else if clipThreshold heat clipPercentile ≤ 1 / 10 ^ 12 then zerosLike heat
  else heat.map (fun row => row.map
    (fun v => npClip v (-(clipThreshold heat clipPercentile)) (clipThreshold heat clipPercentile) /
      (clipThreshold heat clipPercentile + 1 / 10 ^ 8)))

/-- One output sample of a bilinear resize with half-pixel centers, the
sampling rule of `tf.image.resize(..., method="bilinear")`; models the
external TF kernel. -/
def bilinearSample (m : Mat) (srcH srcW : Nat) (outH outW i j : Nat) : ℚ :=
  let sy : ℚ := max 0 (((i : ℚ) + 1 / 2) * srcH / outH - 1 / 2)
  let sx : ℚ := max 0 (((j : ℚ) + 1 / 2) * srcW / outW - 1 / 2)
  let y0 : Nat := min (srcH - 1) (Int.toNat ⌊sy⌋)
  let x0 : Nat := min (srcW - 1) (Int.toNat ⌊sx⌋)
  let y1 : Nat := min (srcH - 1) (y0 + 1)
  let x1 : Nat := min (srcW - 1) (x0 + 1)
  let fy : ℚ := sy - (y0 : ℚ)
  let fx : ℚ := sx - (x0 : ℚ)
  let g : Nat → Nat → ℚ := fun y x => (m.getD y []).getD x 0
  (1 - fy) * ((1 - fx) * g y0 x0 + fx * g y0 x1) +
    fy * ((1 - fx) * g y1 x0 + fx * g y1 x1)

/-- `XaiHelpers.resize_2d` (audio helpers): identity when the shape already
matches, otherwise a bilinear resize to the target (height, width); the
resize of a size-0 source is a framework error. -/
def resize2d (m : Mat) (sizeHW : Nat × Nat) : Except PyErr Mat :=
  if matShape m = sizeHW then .ok m
  else if m.length = 0 ∨ (m.headD []).length = 0 then
    .error (.other "cannot resize an empty 2D map")
  else
    .ok ((List.range sizeHW.1).map (fun i =>
      (List.range sizeHW.2).map (fun j =>
        bilinearSample m m.length (m.headD []).length sizeHW.1 sizeHW.2 i j)))

/-- The resize-on-shape-mismatch step shared by both renderers: identity
when the heat already has the base's spatial shape, otherwise `resize_2d`. -/
def resizeIfNeeded (m : Mat) (sizeHW : Nat × Nat) : Except PyErr Mat :=
  if matShape m = sizeHW then .ok m else resize2d m sizeHW

/-- One pixel of `XaiHelpers.signed_heat_to_rgba` (audio helpers): clamp to
`[-1,1]`; a clamped value `≥ 0` gets `pos_rgb`, the rest `neg_rgb`; the
alpha channel is `alpha_min + (alpha_max - alpha_min) * |value|`, clipped to
`[0,1]`.  Defaults: `pos_rgb = (1.0, 0.12, 0.12)`, `neg_rgb = (0.12, 0.12, 1.0)`. -/
def signedPixelRgba (alphaMin alphaMax : ℚ) (posRgb negRgb : ℚ × ℚ × ℚ)
    (v : ℚ) : List ℚ :=
  let hv := npClip v (-1) 1
  let a := npClip (alphaMin + (alphaMax - alphaMin) * |hv|) 0 1
  let c := if 0 ≤ hv then posRgb else negRgb
  [c.1, c.2.1, c.2.2, a]

/-- `XaiHelpers.signed_heat_to_rgba` (audio helpers): the pixel rule applied
elementwise over the clamped heatmap. -/
def signedHeatToRgba (signedHeat : Mat) (alphaMin alphaMax : ℚ)
    (posRgb : ℚ × ℚ × ℚ := (1, 3 / 25, 3 / 25))
    (negRgb : ℚ × ℚ × ℚ := (3 / 25, 3 / 25, 1)) : Cube :=
  signedHeat.map (fun row => row.map (signedPixelRgba alphaMin alphaMax posRgb negRgb))

/-- One blended uint8 pixel of `XaiHelpers.alpha_blend`: standard "over"
compositing followed by `(np.clip(out, 0, 1) * 255).astype(np.uint8)`. -/
def blendPix (bp op : List ℚ) : List ℚ :=
  let a := op.getD 3 0
  (List.range 3).map (fun k =>
    ((⌊npClip (bp.getD k 0 * (1 - a) + op.getD k 0 * a) 0 1 * 255⌋ : ℤ) : ℚ))

/-- `XaiHelpers.alpha_blend` (audio helpers): clip both inputs to `[0,1]`,
require an (H,W,3) base and an (H,W,4) overlay of the same spatial size
(otherwise numpy raises), composit and convert to uint8. -/
def alphaBlend (baseRgb01 : Img3) (overlayRgba01 : Img3) : Except PyErr Img3 :=
  let b := baseRgb01.data.map (fun row => row.map (fun px => px.map (fun v => npClip v 0 1)))
  let o := overlayRgba01.data.map (fun row => row.map (fun px => px.map (fun v => npClip v 0 1)))
  if lastDim b ≠ 3 then .error (.valueError "alpha_blend expects base RGB with 3 channels")
  else if lastDim o ≠ 4 then .error (.valueError "alpha_blend expects overlay RGBA with 4 channels")
  else if cubeShape b ≠ cubeShape o then .error (.other "operands could not be broadcast together")
  else
    .ok { data := (b.zip o).map (fun ro =>
            (ro.1.zip ro.2).map (fun p => blendPix p.1 p.2)),
          dtype := .u8 }

/-- `XaiHelpers.render_signed_overlay` (audio helpers): ensure-rgb and
float01 the base, resize the heat to the base's spatial shape when needed,
percentile-clip and normalize, colorize by sign, alpha-blend, ensure-rgb. -/
def renderSignedOverlay (baseImage : NpImage) (signedHeat : Mat)
    (cfg : OverlayConfig) : Except PyErr Img3 := do
  let b3 ← ensureRgb baseImage
  let base01 := asFloat01 b3
  let hw := cubeShape base01.data
  let heat1 ← resizeIfNeeded signedHeat hw
  let heat2 := clipAndNormalizeSigned heat1 cfg.clip_percentile
  let rgba : Img3 := { data := signedHeatToRgba heat2 cfg.alpha_min cfg.alpha_max, dtype := .f32 }
  let out ← alphaBlend base01 rgba
  ensureRgb (.color out.data out.dtype)

/-- `XaiHelpers.render_unsigned_overlay` (audio helpers): like the signed
renderer but with a fixed color `(1.0, 0.55, 0.0)` and the importance map
clipped to `[0,1]` driving only the alpha channel. -/
def renderUnsignedOverlay (baseImage : NpImage) (importance01 : Mat)
    (cfg : OverlayConfig) (colorRgb : ℚ × ℚ × ℚ := (1, 11 / 20, 0)) :
    Except PyErr Img3 := do
  let b3 ← ensureRgb baseImage
  let base01 := asFloat01 b3
  let hw := cubeShape base01.data
  let imp1 ← resizeIfNeeded importance01 hw
  let imp2 := imp1.map (fun row => row.map (fun v => npClip v 0 1))
  let rgba : Cube := imp2.map (fun row => row.map (fun v =>
    [colorRgb.1, colorRgb.2.1, colorRgb.2.2,
      npClip (cfg.alpha_min + (cfg.alpha_max - cfg.alpha_min) * v) 0 1]))
  let out ← alphaBlend base01 { data := rgba, dtype := .f32 }
  ensureRgb (.color out.data out.dtype)

/- ------------------------------------------------------------------ -/
/- Audio service: xai/shap.py (Attribution-Game explainer)             -/
/- ------------------------------------------------------------------ -/

/-- `XaiShap._select_valid_class_index` (audio shap.py): keep a requested
index inside `[0, num_classes)`, otherwise fall back to the argmax of the
first prediction row. -/
def shapSelectValidClassIndex (preds2d : List (List ℚ)) (requestedIndex : ℤ) : Nat :=
  let numClasses : ℤ := ((preds2d.headD []).length : ℤ)
  if 0 ≤ requestedIndex ∧ requestedIndex < numClasses then requestedIndex.toNat
  else argmaxFirst (preds2d.headD [])

/-- `XaiShap.explain` (audio shap.py): the layered fallback structure.  The
masking-based SHAP map and the gradient-saliency map are computations on the
external frameworks, so their outcomes enter as `Except` parameters
(`shapComp` for `_shap_signed_map`, `gradComp` for
`_gradient_fallback_unsigned`).  The inner `try` renders the signed SHAP
overlay; any exception there falls through to the gradient path; any
exception in the gradient path falls through to
`ensure_rgb_uint8(base_image)`. -/
def shapExplain (shapComp : Except PyErr Mat) (gradComp : Except PyErr Mat)
    (baseImage : NpImage) (overlayCfg : OverlayConfig) : Except PyErr Img3 :=
  let attempt1 : Except PyErr Img3 := do
    let signed ← shapComp
    renderSignedOverlay baseImage signed overlayCfg
  match attempt1 with
  | .ok r => .ok r
  | .error _ =>
    let attempt2 : Except PyErr Img3 := do
      let imp ← gradComp
      renderUnsignedOverlay baseImage imp overlayCfg
    match attempt2 with
    | .ok r => .ok r
    | .error _ => ensureRgbUint8 baseImage

/- ------------------------------------------------------------------ -/
/- Audio service: xai/gradcam.py (Gradient-Attribution explainer)      -/
/- ------------------------------------------------------------------ -/

/-- The class-index selection of `XaiGradCAM._compute_heatmap` (audio
gradcam.py): `idx = int(class_index); if idx < 0 or idx >= num_classes:
idx = int(tf.argmax(preds[0]))`.  `preds0` is the first row of the rank-2
prediction tensor. -/
def gradcamSelectClassIndex (preds0 : List ℚ) (classIndex : ℤ) : Nat :=
  let numClasses : ℤ := (preds0.length : ℤ)
  if classIndex < 0 ∨ numClasses ≤ classIndex then argmaxFirst preds0
  else classIndex.toNat

/-- `reduce_mean` of a (B,h,w,c) gradient tensor over axes (0,1,2): the
per-channel importance weights of `XaiGradCAM._compute_heatmap`. -/
def pooledGradients (grads : Tensor4) : List ℚ :=
  let cells : List (List ℚ) := grads.flatten.flatten
  let n : ℚ := (cells.length : ℚ)
  (List.range (cells.headD []).length).map
    (fun k => ((cells.map (fun px => px.getD k 0)).sum) / n)

/-- The numeric tail of `XaiGradCAM._compute_heatmap` (audio gradcam.py):
`heatmap = conv_out[0] @ pooled_grads; relu; XaiHelpers.normalize_01`. -/
def gradcamHeatmap (convOut : Tensor4) (grads : Tensor4) : Mat :=
  let pooled := pooledGradients grads
  let conv0 : Cube := convOut.headD []
  let hm : Mat := conv0.map (fun row => row.map
    (fun px => ((px.zip pooled).map (fun p => p.1 * p.2)).sum))
  let hmRelu := hm.map (fun row => row.map (fun v => max v 0))
  normalize_01 hmRelu

/- ------------------------------------------------------------------ -/
/- Audio service: xai/lime.py (Perturbation-Surrogate explainer)       -/
/- ------------------------------------------------------------------ -/

/-- Per-superpixel signed weights of one LIME label. -/
abbrev SegWeights : Type := List (ℤ × ℚ)

/-- The label-selection logic of `XaiLime._lime_weights_to_pixel_heatmap`
(audio lime.py): `local_exp.get(int(label))`; when the requested label is
absent and `local_exp` is non-empty, fall back to the first stored label;
when nothing is available raise ValueError.  `localExp` is the explanation's
`local_exp` dict as an insertion-ordered association list. -/
def limeSelectWeights (localExp : List (ℤ × SegWeights)) (label : ℤ) :
    Except PyErr SegWeights :=
  match localExp.lookup label with
  | some w => .ok w
  | none =>
    match localExp with
    | [] => .error (.valueError "No LIME local explanation weights found for the requested label.")
    | (_, w) :: _ => .ok w

/-- Modelled from the spec: library behaviour absent from the repository.
`np.argsort` over a 1-D array: the indices listed in ascending order of
their values (the default sort kind leaves tie order unspecified; ties keep
index order here). -/
def argsortAsc (probs : List ℚ) : List ℕ :=
  (((List.range probs.length).map (fun i => (probs.getD i 0, i))).insertionSort
    (fun a b => a.1 ≤ b.1)).map (fun p => p.2)

/-- Modelled from the spec: library behaviour absent from the repository.
`lime_image.LimeImageExplainer.explain_instance` keeps the labels
`np.argsort(probs)[-top_labels:]` — the `top_labels` highest-scored labels
in ASCENDING probability order — and fills `local_exp[label]` iterating
that list, so the first key of the insertion-ordered `local_exp` dict is
the LOWEST-scored kept label, not the argmax. -/
def limeLocalExpKeys (probs : List ℚ) (topLabels : ℕ) : List ℤ :=
  ((argsortAsc probs).drop (probs.length - topLabels)).map (fun i => Int.ofNat i)

/-- Modelled from the spec: the `local_exp` dict the lime library hands to
`_lime_weights_to_pixel_heatmap`, as an insertion-ordered association list:
one entry per kept label in `limeLocalExpKeys` order, holding that label's
superpixel weights. -/
def limeBuildLocalExp (probs : List ℚ) (topLabels : ℕ) (w : ℤ → SegWeights) :
    List (ℤ × SegWeights) :=
  (limeLocalExpKeys probs topLabels).map (fun l => (l, w l))

/- ------------------------------------------------------------------ -/
/- Lung service: lung_cancer_detection/libs/detector/xai/helpers.py    -/
/- ------------------------------------------------------------------ -/

/-- `XaiHelpers.normalize_01` (lung helpers): identical min-max
normalization with the fixed `1e-8` guard. -/
def lungNormalize01 (m : Mat) : Mat :=
  if (matEntries m).length = 0 then m
  else
    m.map (fun row => row.map (fun v =>
      (v - npMin (matEntries m)) / (npMax (matEntries m) - npMin (matEntries m) + 1 / 10 ^ 8)))

/-- `XaiHelpers.clip_and_normalize_signed` (lung helpers): same algorithm as
the audio helper, with a mandatory `clip_percentile` argument. -/
def lungClipAndNormalizeSigned (heat : Mat) (clipPercentile : ℚ) : Mat :=
  if (absFlat heat).length = 0 then heat
  else if clipThreshold heat clipPercentile ≤ 1 / 10 ^ 12 then zerosLike heat
  else heat.map (fun row => row.map
    (fun v => npClip v (-(clipThreshold heat clipPercentile)) (clipThreshold heat clipPercentile) /
      (clipThreshold heat clipPercentile + 1 / 10 ^ 8)))

/-- `XaiHelpers.jet_colormap` (lung helpers): the pure-numpy piecewise
linear jet approximation, producing an (H,W,3) float image in `[0,1]`. -/
def jetColormap (heatmap01 : Mat) : Cube :=
  heatmap01.map (fun row => row.map (fun v =>
    let h := npClip v 0 1
    [npClip (3 / 2 - |4 * h - 3|) 0 1,
     npClip (3 / 2 - |4 * h - 2|) 0 1,
     npClip (3 / 2 - |4 * h - 1|) 0 1]))

/-- `XaiHelpers.signed_heat_to_rgba` (lung helpers): same structure as the
audio version, with defaults `pos_rgb = (1.0, 0.1, 0.1)` and
`neg_rgb = (0.1, 0.1, 1.0)`. -/
def lungSignedHeatToRgba (heatNorm : Mat) (alphaMin alphaMax : ℚ)
    (posRgb : ℚ × ℚ × ℚ := (1, 1 / 10, 1 / 10))
    (negRgb : ℚ × ℚ × ℚ := (1 / 10, 1 / 10, 1)) : Cube :=
  heatNorm.map (fun row => row.map (fun v =>
    let hv := npClip v (-1) 1
    let a := npClip (alphaMin + (alphaMax - alphaMin) * |hv|) 0 1
    let c := if 0 ≤ hv then posRgb else negRgb
    [c.1, c.2.1, c.2.2, a]))

/-- `XaiHelpers.to_uint8_rgb` (lung helpers): require (H,W,3), clip to
`[0,1]`, scale by 255 and truncate to uint8. -/
def lungToUint8Rgb (img01Rgb : Img3) : Except PyErr Img3 :=
  if lastDim img01Rgb.data ≠ 3 then .error (.valueError "Expected RGB with 3 channels")
  else
    let d := img01Rgb.data.map (fun row => row.map (fun px => px.map
      (fun v => ((⌊npClip v 0 1 * 255⌋ : ℤ) : ℚ))))
    .ok { data := d, dtype := .u8 }

/-- `XaiHelpers.alpha_blend_rgb01_rgba01` (lung helpers): clip both inputs,
validate channel counts, composit and convert to uint8 via `to_uint8_rgb`. -/
def lungAlphaBlendRgb01Rgba01 (baseRgb01 overlayRgba01 : Img3) : Except PyErr Img3 :=
  let b := baseRgb01.data.map (fun row => row.map (fun px => px.map (fun v => npClip v 0 1)))
  let o := overlayRgba01.data.map (fun row => row.map (fun px => px.map (fun v => npClip v 0 1)))
  if lastDim b ≠ 3 then .error (.valueError "Expected base RGB with 3 channels")
  else if lastDim o ≠ 4 then .error (.valueError "Expected overlay RGBA with 4 channels")
  else if cubeShape b ≠ cubeShape o then .error (.other "operands could not be broadcast together")
  else
    let out : Cube := (b.zip o).map (fun ro =>
      (ro.1.zip ro.2).map (fun p =>
        let a := p.2.getD 3 0
        (List.range 3).map (fun k => p.1.getD k 0 * (1 - a) + p.2.getD k 0 * a)))
    lungToUint8Rgb { data := out, dtype := .f32 }

/-- `XaiHelpers.render_signed_overlay_rgb01` (lung helpers): clip the base,
require an (H,W,3) base, require the heat's shape to EQUAL the base's
spatial shape (no resize in this service: a mismatch raises ValueError),
then percentile-clip, colorize and blend to uint8. -/
def lungRenderSignedOverlayRgb01 (baseRgb01 : Img3) (signedHeat : Mat)
    (cfg : OverlayConfig) : Except PyErr Img3 :=
  let base : Cube := baseRgb01.data.map (fun row => row.map (fun px => px.map (fun v => npClip v 0 1)))
  if lastDim base ≠ 3 then .error (.valueError "Expected base RGB with 3 channels")
  else if matShape signedHeat ≠ cubeShape base then
    .error (.valueError "signed_heat must match spatial shape")
  else
    let heatNorm := lungClipAndNormalizeSigned signedHeat cfg.clip_percentile
    let overlayRgba := lungSignedHeatToRgba heatNorm cfg.alpha_min cfg.alpha_max
    lungAlphaBlendRgb01Rgba01 { data := base, dtype := .f32 }
      { data := overlayRgba, dtype := .f32 }

/- ------------------------------------------------------------------ -/
/- Lung service: xai/gradcam.py rendering tail and lime.py finalize    -/
/- ------------------------------------------------------------------ -/

/-- `XaiGradCAM._overlay_heatmap` (lung gradcam.py): require equal 2-D
shapes, clip base and heatmap to `[0,1]`, optional threshold mask, stack the
base to RGB, jet-colorize the heatmap and blend with fixed weights; the
result stays a FLOAT image in `[0,1]` (no uint8 conversion). -/
def lungOverlayHeatmap (baseGray01 : Mat) (heatmap01 : Mat) (alpha : ℚ := 9 / 20)
    (threshold : Option ℚ := none) : Except PyErr Img3 :=
  if matShape baseGray01 ≠ matShape heatmap01 then
    .error (.valueError "base and heatmap must have same shape")
  else
    let base := baseGray01.map (fun row => row.map (fun v => npClip v 0 1))
    let hm0 := heatmap01.map (fun row => row.map (fun v => npClip v 0 1))
    let hm := match threshold with
      | none => hm0
      | some t => hm0.map (fun row => row.map (fun v => if t ≤ v then v else 0))
    let baseRgb : Cube := base.map (fun row => row.map (fun v => [v, v, v]))
    let hmRgb : Cube := jetColormap hm
    let out : Cube := (baseRgb.zip hmRgb).map (fun ro =>
      (ro.1.zip ro.2).map (fun p =>
        (List.range 3).map (fun k =>
          npClip ((1 - alpha) * p.1.getD k 0 + alpha * p.2.getD k 0) 0 1)))
    .ok { data := out, dtype := .f32 }

/-- The base-image preparation of `XaiGradCAM.explain` step 6 (lung
gradcam.py): cast to float32, divide by 255 when the maximum exceeds 1,
clip to `[0,1]`. -/
def lungPrepBaseGray (baseImage : Mat) : Mat :=
  let g := baseImage
  let g2 := if 1 < npMax (matEntries g) then
      g.map (fun row => row.map (fun v => v / 255))
    else g
  g2.map (fun row => row.map (fun v => npClip v 0 1))

/-- Steps 6-8 of `XaiGradCAM.explain` (lung gradcam.py) after the hook-based
heatmap computation: prepare the grayscale base and overlay the heatmap.
The heatmap itself comes from the torch-based `_compute_gradcam` and enters
as a parameter. -/
def lungGradcamRenderTail (baseImage : Mat) (heatmap : Mat) (alpha : ℚ := 9 / 20)
    (threshold : Option ℚ := none) : Except PyErr Img3 :=
  lungOverlayHeatmap (lungPrepBaseGray baseImage) heatmap alpha threshold

/-- The final step of `XaiLime.explain` (lung lime.py): the boundary-marked
overlay from skimage enters as a parameter and is clipped to a float image
in `[0,1]` — again no uint8 conversion. -/
def lungLimeFinalize (overlay : Cube) : Img3 :=
  { data := overlay.map (fun row => row.map (fun px => px.map (fun v => npClip v 0 1))),
    dtype := .f32 }

/- ------------------------------------------------------------------ -/
/- Lung service: detector/core.py dispatch and backend error handling  -/
/- ------------------------------------------------------------------ -/

/-- The two explainers the lung orchestrator can construct. -/
inductive LungExplainer where
  | gradcamE : LungExplainer
  | limeE : LungExplainer
deriving DecidableEq

/-- The XAI-method dispatch of `LungCancerDetector.detect` (lung core.py):
`if xai_method == XaiMethod.GRADCAM ... elif XaiMethod.LIME ... else raise
ValueError(f"Unknown XAI method: ...")`.  `XaiMethod` is a `StrEnum`, so the
selector is compared as a string and an unknown value reaches the `else`. -/
def lungDetectDispatch (xaiMethod : String) : Except PyErr LungExplainer :=
  if xaiMethod = "gradcam" then .ok .gradcamE
  else if xaiMethod = "lime" then .ok .limeE
  else .error (.valueError ("Unknown XAI method: " ++ xaiMethod))

/-- `auto_handle_errors` (lung backend utils/error_handling.py): an
`HTTPException` passes through with its own status; every other exception
is logged and re-raised as an `HTTPException` with status 500 carrying the
error message. -/
def autoHandleErrors {α : Type} (r : Except PyErr α) : Except (Nat × String) α :=
  match r with
  | .ok v => .ok v
  | .error (.httpException status msg) => .error (status, msg)
  | .error e => .error (500, e.message)

/-- Whether an HTTP status is a 4xx client error. -/
def isClientError (status : Nat) : Bool := 400 ≤ status && status < 500

/-- Modelled from the spec: the FastAPI form-binding of the XAI method
selector (the HTTP boundary is an external collaborator, not under `src/`).
A string outside the `XaiMethod` enum is rejected at request validation with
a 422 client error before the handler body runs; a member of the enum is
bound. -/
def bindXaiMethodSpec (s : String) : Except (Nat × String) String :=
  if s = "gradcam" ∨ s = "lime" then .ok s
  else .error (422, "Input should be gradcam or lime")

/- ------------------------------------------------------------------ -/
/- Basic lemmas about the numpy primitives                             -/
/- ------------------------------------------------------------------ -/

theorem foldl_min_le_init (l : List ℚ) (a : ℚ) : l.foldl min a ≤ a := by
  induction l generalizing a with
  | nil => simp
  | cons y ys ih =>
    calc (y :: ys).foldl min a = ys.foldl min (min a y) := rfl
    _ ≤ min a y := ih (min a y)
    _ ≤ a := min_le_left _ _

theorem foldl_min_le_mem (l : List ℚ) (a x : ℚ) (hx : x ∈ l) :
    l.foldl min a ≤ x := by
  induction l generalizing a with
  | nil => cases hx
  | cons y ys ih =>
    rcases List.mem_cons.mp hx with h | h
    · subst h
      calc (x :: ys).foldl min a = ys.foldl min (min a x) := rfl
      _ ≤ min a x := foldl_min_le_init ys (min a x)
      _ ≤ x := min_le_right _ _
    · exact ih (min a y) h

theorem init_le_foldl_max (l : List ℚ) (a : ℚ) : a ≤ l.foldl max a := by
  induction l generalizing a with
  | nil => simp
  | cons y ys ih =>
    calc a ≤ max a y := le_max_left _ _
    _ ≤ ys.foldl max (max a y) := ih (max a y)
    _ = (y :: ys).foldl max a := rfl

theorem mem_le_foldl_max (l : List ℚ) (a x : ℚ) (hx : x ∈ l) :
    x ≤ l.foldl max a := by
  induction l generalizing a with
  | nil => cases hx
  | cons y ys ih =>
    rcases List.mem_cons.mp hx with h | h
    · subst h
      calc x ≤ max a x := le_max_right _ _
      _ ≤ ys.foldl max (max a x) := init_le_foldl_max ys (max a x)
      _ = (x :: ys).foldl max a := rfl
    · exact ih (max a y) h

theorem npMin_le (l : List ℚ) (x : ℚ) (hx : x ∈ l) : npMin l ≤ x := by
  cases l with
  | nil => cases hx
  | cons y ys =>
    rcases List.mem_cons.mp hx with h | h
    · subst h; exact foldl_min_le_init ys x
    · exact foldl_min_le_mem ys y x h

theorem le_npMax (l : List ℚ) (x : ℚ) (hx : x ∈ l) : x ≤ npMax l := by
  cases l with
  | nil => cases hx
  | cons y ys =>
    rcases List.mem_cons.mp hx with h | h
    · subst h; exact init_le_foldl_max ys x
    · exact mem_le_foldl_max ys y x h

theorem npMin_le_npMax (l : List ℚ) (hl : l ≠ []) : npMin l ≤ npMax l := by
  cases l with
  | nil => exact absurd rfl hl
  | cons y ys =>
    exact le_trans (npMin_le _ y (List.mem_cons_self y ys))
      (le_npMax _ y (List.mem_cons_self y ys))

theorem foldl_min_map (f : ℚ → ℚ) (hf : ∀ a b, f (min a b) = min (f a) (f b))
    (l : List ℚ) (a : ℚ) : (l.map f).foldl min (f a) = f (l.foldl min a) := by
  induction l generalizing a with
  | nil => rfl
  | cons y ys ih =>
    show (ys.map f).foldl min (min (f a) (f y)) = f (ys.foldl min (min a y))
    rw [← hf, ih]

theorem foldl_max_map (f : ℚ → ℚ) (hf : ∀ a b, f (max a b) = max (f a) (f b))
    (l : List ℚ) (a : ℚ) : (l.map f).foldl max (f a) = f (l.foldl max a) := by
  induction l generalizing a with
  | nil => rfl
  | cons y ys ih =>
    show (ys.map f).foldl max (max (f a) (f y)) = f (ys.foldl max (max a y))
    rw [← hf, ih]

theorem npMin_map (f : ℚ → ℚ) (hmono : Monotone f) (l : List ℚ) (hl : l ≠ []) :
    npMin (l.map f) = f (npMin l) := by
  cases l with
  | nil => exact absurd rfl hl
  | cons y ys =>
    show (ys.map f).foldl min (f y) = f (ys.foldl min y)
    exact foldl_min_map f (fun a b => hmono.map_min) ys y

theorem npMax_map (f : ℚ → ℚ) (hmono : Monotone f) (l : List ℚ) (hl : l ≠ []) :
    npMax (l.map f) = f (npMax l) := by
  cases l with
  | nil => exact absurd rfl hl
  | cons y ys =>
    show (ys.map f).foldl max (f y) = f (ys.foldl max y)
    exact foldl_max_map f (fun a b => hmono.map_max) ys y

theorem matEntries_map (m : Mat) (f : ℚ → ℚ) :
    matEntries (m.map (fun row => row.map f)) = (matEntries m).map f := by
  induction m with
  | nil => rfl
  | cons r rs ih =>
    simp only [matEntries, List.map_cons, List.flatten_cons, List.map_append]
    exact congrArg (r.map f ++ ·) ih

theorem getD_eq_zero_of_all_zero (l : List ℚ) (h : ∀ x ∈ l, x = 0) (i : Nat) :
    l.getD i 0 = 0 := by
  rw [List.getD_eq_getElem?_getD]
  cases hg : l[i]? with
  | none => rfl
  | some x =>
    have hx : x ∈ l := List.getElem?_mem hg
    simp [h x hx]

theorem npPercentile_all_zero (l : List ℚ) (h : ∀ x ∈ l, x = 0) (q : ℚ) :
    npPercentile l q = 0 := by
  have hs : ∀ x ∈ l.insertionSort (· ≤ ·), x = 0 := by
    intro x hx
    exact h x ((List.perm_insertionSort (· ≤ ·) l).mem_iff.mp hx)
  simp only [npPercentile]
  split
  · rfl
  · simp only [getD_eq_zero_of_all_zero _ hs]
    ring

theorem zerosLike_eq_self (m : Mat) (h : ∀ row ∈ m, ∀ v ∈ row, v = 0) :
    zerosLike m = m := by
  induction m with
  | nil => rfl
  | cons r rs ih =>
    unfold zerosLike
    simp only [List.map_cons]
    have hr : r.map (fun _ => (0 : ℚ)) = r := by
      have : ∀ v ∈ r, (fun _ => (0 : ℚ)) v = id v := by
        intro v hv
        simp [(h r (List.mem_cons_self r rs) v hv)]
      rw [List.map_congr_left this, List.map_id]
    rw [hr]
    exact congrArg (r :: ·) (ih (fun row hrow => h row (List.mem_cons_of_mem r hrow)))

theorem lungClip_eq_audio (heat : Mat) (p : ℚ) :
    lungClipAndNormalizeSigned heat p = clipAndNormalizeSigned heat p := rfl

theorem lungNormalize01_eq_audio (m : Mat) : lungNormalize01 m = normalize_01 m := rfl

theorem npClip_le_hi (v lo hi : ℚ) : npClip v lo hi ≤ hi := min_le_left _ _

theorem lo_le_npClip (v lo hi : ℚ) (h : lo ≤ hi) : lo ≤ npClip v lo hi :=
  le_min h (le_max_left _ _)

theorem absFlat_length (heat : Mat) : (absFlat heat).length = (matEntries heat).length :=
  List.length_map _ _

theorem normalize_01_bounds (m : Mat) (eps : ℚ) (heps : 0 < eps) :
    ∀ v ∈ matEntries (normalize_01 m eps), 0 ≤ v ∧ v ≤ 1 := by
  intro v hv
  unfold normalize_01 at hv
  split at hv
  · next h =>
    rw [List.length_eq_zero.mp h] at hv
    cases hv
  · rw [matEntries_map] at hv
    obtain ⟨w, hw, rfl⟩ := List.mem_map.mp hv
    have h1 : npMin (matEntries m) ≤ w := npMin_le _ _ hw
    have h2 : w ≤ npMax (matEntries m) := le_npMax _ _ hw
    have hden : 0 < npMax (matEntries m) - npMin (matEntries m) + eps := by linarith
    refine ⟨div_nonneg (by linarith) hden.le, ?_⟩
    rw [div_le_one hden]
    linarith

theorem clip_signed_bounds (heat : Mat) (p : ℚ) :
    ∀ v ∈ matEntries (clipAndNormalizeSigned heat p), -1 ≤ v ∧ v ≤ 1 := by
  intro v hv
  unfold clipAndNormalizeSigned at hv
  split at hv
  · next h =>
    rw [absFlat_length] at h
    rw [List.length_eq_zero.mp h] at hv
    cases hv
  · split at hv
    · unfold zerosLike at hv
      rw [matEntries_map] at hv
      obtain ⟨w, _, rfl⟩ := List.mem_map.mp hv
      norm_num
    · next hthr =>
      rw [matEntries_map] at hv
      obtain ⟨w, hw, rfl⟩ := List.mem_map.mp hv
      have hpos : 0 < clipThreshold heat p := by
        have := lt_of_not_le hthr
        linarith
      have hden : 0 < clipThreshold heat p + 1 / 10 ^ 8 := by linarith
      constructor
      · rw [le_div_iff₀ hden, neg_mul, one_mul]
        have := lo_le_npClip w (-(clipThreshold heat p)) (clipThreshold heat p) (by linarith)
        linarith
      · rw [div_le_one hden]
        have := npClip_le_hi w (-(clipThreshold heat p)) (clipThreshold heat p)
        linarith

theorem normalize_01_entries (m : Mat) (eps : ℚ) (h : matEntries m ≠ []) :
    matEntries (normalize_01 m eps) =
      (matEntries m).map (fun v =>
        (v - npMin (matEntries m)) / (npMax (matEntries m) - npMin (matEntries m) + eps)) := by
  unfold normalize_01
  rw [if_neg (by simpa using h)]
  exact matEntries_map m _

theorem normalize_01_nonempty (m : Mat) (eps : ℚ) (h : matEntries m ≠ []) :
    matEntries (normalize_01 m eps) ≠ [] := by
  rw [normalize_01_entries m eps h]
  simpa using h

theorem sub_div_monotone (c d : ℚ) (hd : 0 < d) :
    Monotone (fun v : ℚ => (v - c) / d) := by
  intro a b hab
  exact (div_le_div_iff_of_pos_right hd).mpr (by linarith)

theorem le_foldl_min (l : List ℚ) (a b : ℚ) (hb : b ≤ a) (h : ∀ x ∈ l, b ≤ x) :
    b ≤ l.foldl min a := by
  induction l generalizing a with
  | nil => exact hb
  | cons y ys ih =>
    exact ih (min a y) (le_min hb (h y (List.mem_cons_self y ys)))
      (fun x hx => h x (List.mem_cons_of_mem y hx))

theorem le_npMin (l : List ℚ) (b : ℚ) (hl : l ≠ []) (h : ∀ x ∈ l, b ≤ x) :
    b ≤ npMin l := by
  cases l with
  | nil => exact absurd rfl hl
  | cons y ys =>
    exact le_foldl_min ys y b (h y (List.mem_cons_self y ys))
      (fun x hx => h x (List.mem_cons_of_mem y hx))

theorem foldl_max_le (l : List ℚ) (a b : ℚ) (hb : a ≤ b) (h : ∀ x ∈ l, x ≤ b) :
    l.foldl max a ≤ b := by
  induction l generalizing a with
  | nil => exact hb
  | cons y ys ih =>
    exact ih (max a y) (max_le hb (h y (List.mem_cons_self y ys)))
      (fun x hx => h x (List.mem_cons_of_mem y hx))

theorem npMax_le (l : List ℚ) (b : ℚ) (hl : l ≠ []) (h : ∀ x ∈ l, x ≤ b) :
    npMax l ≤ b := by
  cases l with
  | nil => exact absurd rfl hl
  | cons y ys =>
    exact foldl_max_le ys y b (h y (List.mem_cons_self y ys))
      (fun x hx => h x (List.mem_cons_of_mem y hx))

theorem matMap_congr_zero (m : Mat) (f : ℚ → ℚ) (h : ∀ v ∈ matEntries m, f v = 0) :
    m.map (fun row => row.map f) = zerosLike m := by
  unfold zerosLike
  refine List.map_congr_left (fun row hrow => ?_)
  refine List.map_congr_left (fun v hv => ?_)
  exact h v (List.mem_flatten.mpr ⟨row, hrow, hv⟩)

theorem zerosLike_zerosLike (m : Mat) : zerosLike (zerosLike m) = zerosLike m := by
  simp [zerosLike, List.map_map]

theorem zerosLike_entries (m : Mat) : ∀ v ∈ matEntries (zerosLike m), v = 0 := by
  intro v hv
  unfold zerosLike at hv
  rw [matEntries_map] at hv
  obtain ⟨w, _, rfl⟩ := List.mem_map.mp hv
  rfl

theorem normalize_01_min_max (m : Mat) (eps : ℚ) (heps : 0 < eps)
    (h : matEntries m ≠ []) :
    npMin (matEntries (normalize_01 m eps)) = 0 ∧
    npMax (matEntries (normalize_01 m eps)) =
      (npMax (matEntries m) - npMin (matEntries m)) /
        (npMax (matEntries m) - npMin (matEntries m) + eps) := by
  have hD : 0 ≤ npMax (matEntries m) - npMin (matEntries m) := by
    have := npMin_le_npMax (matEntries m) h
    linarith
  have hden : 0 < npMax (matEntries m) - npMin (matEntries m) + eps := by linarith
  have hmono := sub_div_monotone (npMin (matEntries m))
    (npMax (matEntries m) - npMin (matEntries m) + eps) hden
  rw [normalize_01_entries m eps h]
  rw [npMin_map _ hmono _ h, npMax_map _ hmono _ h]
  constructor
  · simp
  · rfl

theorem second_normalize_dev (D w : ℚ) (hD : 1 / 100 ≤ D) (hw0 : 0 ≤ w)
    (hwM : w ≤ D / (D + 1 / 10 ^ 8)) :
    |w / (D / (D + 1 / 10 ^ 8) + 1 / 10 ^ 8) - w| ≤ 1 / 10 ^ 6 := by
  have hD0 : (0 : ℚ) < D := lt_of_lt_of_le (by norm_num) hD
  have hd0 : (0 : ℚ) < D + 1 / 10 ^ 8 := by
    have : (0 : ℚ) < 1 / 10 ^ 8 := by norm_num
    linarith
  set M : ℚ := D / (D + 1 / 10 ^ 8) with hMdef
  have hM1 : M < 1 := by
    rw [hMdef, div_lt_one hd0]
    have : (0 : ℚ) < 1 / 10 ^ 8 := by norm_num
    linarith
  have hM0 : 0 ≤ M := le_trans hw0 hwM
  have hw1 : w ≤ 1 := le_trans hwM hM1.le
  have hMlb : 1 - 1 / 10 ^ 6 ≤ M := by
    rw [hMdef, le_div_iff₀ hd0]
    nlinarith
  have hT0 : (0 : ℚ) < M + 1 / 10 ^ 8 := by
    have : (0 : ℚ) < 1 / 10 ^ 8 := by norm_num
    linarith
  rw [abs_le]
  constructor
  · have hq : (w - 1 / 10 ^ 6) * (M + 1 / 10 ^ 8) ≤ w := by
      nlinarith [mul_nonpos_of_nonneg_of_nonpos hw0 (by linarith : M - 1 ≤ (0 : ℚ)),
        mul_le_mul_of_nonneg_right hw1 (by norm_num : (0 : ℚ) ≤ 1 / 10 ^ 8)]
    have h2 : w - 1 / 10 ^ 6 ≤ w / (M + 1 / 10 ^ 8) := by
      rw [le_div_iff₀ hT0]
      exact hq
    linarith
  · have hq : w ≤ (w + 1 / 10 ^ 6) * (M + 1 / 10 ^ 8) := by
      nlinarith [mul_le_mul_of_nonneg_right hwM (by linarith : (0 : ℚ) ≤ 1 - M),
        mul_le_mul_of_nonneg_left (by linarith : 1 - M ≤ 1 / 10 ^ 6) hM0,
        mul_nonneg hw0 (by norm_num : (0 : ℚ) ≤ 1 / 10 ^ 8)]
    have h2 : w / (M + 1 / 10 ^ 8) ≤ w + 1 / 10 ^ 6 := by
      rw [div_le_iff₀ hT0]
      exact hq
    linarith

/- ------------------------------------------------------------------ -/
/- Shape and value lemmas for the overlay rendering pipeline           -/
/- ------------------------------------------------------------------ -/

/-- Integer-valued uint8 entry: equal to its floor and within `[0, 255]`. -/
def isU8Val (v : ℚ) : Prop := v = ((⌊v⌋ : ℤ) : ℚ) ∧ 0 ≤ v ∧ v ≤ 255

instance (v : ℚ) : Decidable (isU8Val v) := by
  unfold isU8Val; infer_instance

/-- A display-ready uint8 RGB image: uint8 dtype and integer entries in
`[0, 255]`. -/
def isUint8Rgb255 (img : Img3) : Prop :=
  img.dtype = .u8 ∧ ∀ v ∈ cubeEntries img.data, isU8Val v

instance (img : Img3) : Decidable (isUint8Rgb255 img) := by
  unfold isUint8Rgb255; infer_instance

/-- First two dimensions of a raw input image. -/
def npShape2 (img : NpImage) : Nat × Nat :=
  match img with
  | .gray m _ => matShape m
  | .color t _ => cubeShape t

theorem matShape_map (m : Mat) (f : ℚ → ℚ) :
    matShape (m.map (fun row => row.map f)) = matShape m := by
  cases m with
  | nil => rfl
  | cons r rs => simp [matShape]

theorem cubeShape_map_pix (t : Cube) (F : List ℚ → List ℚ) :
    cubeShape (t.map (fun row => row.map F)) = cubeShape t := by
  cases t with
  | nil => rfl
  | cons r rs => simp [cubeShape]

theorem cubeShape_mat_map (m : Mat) (F : ℚ → List ℚ) :
    cubeShape (m.map (fun row => row.map F)) = matShape m := by
  cases m with
  | nil => rfl
  | cons r rs => simp [cubeShape, matShape]

theorem lastDim_map_val (t : Cube) (f : ℚ → ℚ) :
    lastDim (t.map (fun row => row.map (fun px => px.map f))) = lastDim t := by
  cases t with
  | nil => rfl
  | cons r rs =>
    cases r with
    | nil => rfl
    | cons p ps => simp [lastDim]

theorem mem_cubeEntries (t : Cube) (v : ℚ) :
    v ∈ cubeEntries t ↔ ∃ row ∈ t, ∃ px ∈ row, v ∈ px := by
  simp only [cubeEntries, List.mem_flatten, List.mem_map]
  constructor
  · rintro ⟨l, ⟨row, hrow, rfl⟩, hv⟩
    rcases List.mem_flatten.mp hv with ⟨px, hpx, hvpx⟩
    exact ⟨row, hrow, px, hpx, hvpx⟩
  · rintro ⟨row, hrow, px, hpx, hvpx⟩
    exact ⟨row.flatten, ⟨row, hrow, rfl⟩, List.mem_flatten.mpr ⟨px, hpx, hvpx⟩⟩

theorem matShape_zerosLike (m : Mat) : matShape (zerosLike m) = matShape m :=
  matShape_map m _

theorem matShape_clip_signed (heat : Mat) (p : ℚ) :
    matShape (clipAndNormalizeSigned heat p) = matShape heat := by
  unfold clipAndNormalizeSigned
  split
  · rfl
  · split
    · exact matShape_zerosLike heat
    · exact matShape_map heat _

theorem ensureRgbStep4_ok (t2 out : Cube) (h : ensureRgbStep4 t2 = .ok out) :
    out = t2 ∧ lastDim t2 = 3 := by
  unfold ensureRgbStep4 at h
  split at h
  · cases h
    exact ⟨rfl, by assumption⟩
  · cases h

theorem ensureRgbSteps_ok_lastDim (t0 t2 : Cube)
    (h : ensureRgbSteps t0 = .ok t2) : lastDim t2 = 3 := by
  unfold ensureRgbSteps ensureRgbStep3 at h
  split at h
  all_goals split at h
  all_goals obtain ⟨rfl, hc⟩ := ensureRgbStep4_ok _ _ h
  all_goals exact hc

theorem ensureRgbSteps_ok_shape (t0 t2 : Cube)
    (h : ensureRgbSteps t0 = .ok t2) : cubeShape t2 = cubeShape t0 := by
  unfold ensureRgbSteps ensureRgbStep3 at h
  split at h
  all_goals split at h
  all_goals obtain ⟨rfl, hc⟩ := ensureRgbStep4_ok _ _ h
  all_goals simp [cubeShape_map_pix]

theorem cubeEntries_map_pix_subset (t : Cube) (F : List ℚ → List ℚ)
    (hF : ∀ px, ∀ v ∈ F px, v ∈ px) :
    ∀ v ∈ cubeEntries (t.map (fun row => row.map F)), v ∈ cubeEntries t := by
  intro v hv
  rw [mem_cubeEntries] at hv ⊢
  obtain ⟨row, hrow, px, hpx, hvpx⟩ := hv
  obtain ⟨row0, hrow0, rfl⟩ := List.mem_map.mp hrow
  obtain ⟨px0, hpx0, rfl⟩ := List.mem_map.mp hpx
  exact ⟨row0, hrow0, px0, hpx0, hF px0 v hvpx⟩

theorem mem_of_triple_append (px : List ℚ) (v : ℚ) (hv : v ∈ px ++ px ++ px) :
    v ∈ px := by
  rcases List.mem_append.mp hv with h | h
  · rcases List.mem_append.mp h with h2 | h2 <;> exact h2
  · exact h

theorem ensureRgbSteps_ok_entries (t0 t2 : Cube)
    (h : ensureRgbSteps t0 = .ok t2) :
    ∀ v ∈ cubeEntries t2, v ∈ cubeEntries t0 := by
  unfold ensureRgbSteps ensureRgbStep3 at h
  split at h
  all_goals split at h
  all_goals obtain ⟨rfl, hc⟩ := ensureRgbStep4_ok _ _ h
  · intro v hv
    exact cubeEntries_map_pix_subset _ _ (fun px => mem_of_triple_append px) v
      (cubeEntries_map_pix_subset _ _
        (fun px w hw => List.mem_of_mem_take hw) v hv)
  · intro v hv
    exact cubeEntries_map_pix_subset _ _ (fun px => mem_of_triple_append px) v hv
  · intro v hv
    exact cubeEntries_map_pix_subset _ _ (fun px w hw => List.mem_of_mem_take hw) v hv
  · intro v hv
    exact hv

theorem ensureRgbSteps_lastDim3 (t : Cube) (h : lastDim t = 3) :
    ensureRgbSteps t = .ok t := by
  unfold ensureRgbSteps ensureRgbStep3 ensureRgbStep4
  simp [h]

theorem ensureRgb_color_lastDim3 (t : Cube) (dt : Dty) (h : lastDim t = 3) :
    ensureRgb (.color t dt) = .ok { data := t, dtype := dt } := by
  have he : ensureRgb (NpImage.color t dt) =
      (ensureRgbSteps t).map (fun t2 => { data := t2, dtype := dt }) := rfl
  rw [he, ensureRgbSteps_lastDim3 t h]
  rfl

theorem cubeEntries_map_val (t : Cube) (f : ℚ → ℚ) :
    cubeEntries (t.map (fun row => row.map (fun px => px.map f))) =
      (cubeEntries t).map f := by
  induction t with
  | nil => rfl
  | cons r rs ih =>
    simp only [cubeEntries, List.map_cons, List.flatten_cons] at *
    rw [List.map_append, ← ih]
    exact congrArg (· ++ _) (matEntries_map r f)

theorem asFloat01_shape (img : Img3) :
    cubeShape (asFloat01 img).data = cubeShape img.data := by
  simp only [asFloat01]
  rw [cubeShape_map_pix]
  split
  · exact cubeShape_map_pix _ _
  · rfl

theorem asFloat01_lastDim (img : Img3) :
    lastDim (asFloat01 img).data = lastDim img.data := by
  simp only [asFloat01]
  rw [lastDim_map_val]
  split
  · exact lastDim_map_val _ _
  · rfl

theorem blendPix_vals (bp op : List ℚ) : ∀ v ∈ blendPix bp op, isU8Val v := by
  intro v hv
  unfold blendPix at hv
  rw [List.mem_map] at hv
  obtain ⟨k, _, rfl⟩ := hv
  have hcl0 : (0 : ℚ) ≤ npClip (bp.getD k 0 * (1 - op.getD 3 0) + op.getD k 0 * op.getD 3 0) 0 1 :=
    lo_le_npClip _ 0 1 (by norm_num)
  have hcl1 : npClip (bp.getD k 0 * (1 - op.getD 3 0) + op.getD k 0 * op.getD 3 0) 0 1 ≤ 1 :=
    npClip_le_hi _ 0 1
  refine ⟨by rw [Int.floor_intCast], ?_, ?_⟩
  · have : (0 : ℤ) ≤ ⌊npClip (bp.getD k 0 * (1 - op.getD 3 0) + op.getD k 0 * op.getD 3 0) 0 1 * 255⌋ :=
      Int.floor_nonneg.mpr (by nlinarith)
    exact_mod_cast this
  · have h1 := Int.floor_le (npClip (bp.getD k 0 * (1 - op.getD 3 0) + op.getD k 0 * op.getD 3 0) 0 1 * 255)
    have h2 : npClip (bp.getD k 0 * (1 - op.getD 3 0) + op.getD k 0 * op.getD 3 0) 0 1 * 255 ≤ 255 := by
      nlinarith
    linarith

theorem mem_entries_zip_map (b o : Cube) (G : List ℚ → List ℚ → List ℚ) (v : ℚ)
    (hv : v ∈ cubeEntries ((b.zip o).map (fun ro =>
      (ro.1.zip ro.2).map (fun p => G p.1 p.2)))) :
    ∃ p1 p2, v ∈ G p1 p2 := by
  rw [mem_cubeEntries] at hv
  obtain ⟨row, hrow, px, hpx, hvpx⟩ := hv
  obtain ⟨ro, _, rfl⟩ := List.mem_map.mp hrow
  obtain ⟨p, _, rfl⟩ := List.mem_map.mp hpx
  exact ⟨p.1, p.2, hvpx⟩

theorem cubeShape_zip_map (b o : Cube) (G : List ℚ → List ℚ → List ℚ)
    (hsh : cubeShape b = cubeShape o) :
    cubeShape ((b.zip o).map (fun ro =>
      (ro.1.zip ro.2).map (fun p => G p.1 p.2))) = cubeShape b := by
  cases b with
  | nil =>
    cases o with
    | nil => rfl
    | cons s ss =>
      have := congrArg Prod.fst hsh
      simp [cubeShape] at this
  | cons r rs =>
    cases o with
    | nil =>
      have := congrArg Prod.fst hsh
      simp [cubeShape] at this
    | cons s ss =>
      have h1 : rs.length = ss.length := by
        have := congrArg Prod.fst hsh
        simpa [cubeShape] using this
      have h2 : r.length = s.length := by
        have := congrArg Prod.snd hsh
        simpa [cubeShape] using this
      simp [cubeShape, List.length_zip, h1, h2]

theorem lastDim_zip_map_len (bc oc : Cube) (G : List ℚ → List ℚ → List ℚ)
    (n : Nat) (hG : ∀ p q, (G p q).length = n) (hH : 0 < (cubeShape bc).1)
    (hW : 0 < (cubeShape bc).2) (hsh : cubeShape bc = cubeShape oc) :
    lastDim ((bc.zip oc).map (fun ro =>
      (ro.1.zip ro.2).map (fun p => G p.1 p.2))) = n := by
  cases bc with
  | nil => simp [cubeShape] at hH
  | cons r rs =>
    cases oc with
    | nil =>
      have := congrArg Prod.fst hsh
      simp [cubeShape] at this
    | cons v vs =>
      have hr : 0 < r.length := by simpa [cubeShape] using hW
      have hrv : r.length = v.length := by
        have := congrArg Prod.snd hsh
        simpa [cubeShape] using this
      cases r with
      | nil => simp at hr
      | cons p ps =>
        cases v with
        | nil => simp at hrv
        | cons q qs => simp [lastDim, hG]

theorem alphaBlend_ok (b o : Img3)
    (hb3 : lastDim b.data = 3) (ho4 : lastDim o.data = 4)
    (hsh : cubeShape b.data = cubeShape o.data) :
    ∃ out : Img3, alphaBlend b o = .ok out ∧
      out.dtype = .u8 ∧ cubeShape out.data = cubeShape b.data ∧
      (∀ v ∈ cubeEntries out.data, isU8Val v) ∧
      (0 < (cubeShape b.data).1 → 0 < (cubeShape b.data).2 → lastDim out.data = 3) := by
  have hb' : lastDim (b.data.map (fun row => row.map (fun px => px.map (fun v => npClip v 0 1)))) = 3 := by
    rw [lastDim_map_val]; exact hb3
  have ho' : lastDim (o.data.map (fun row => row.map (fun px => px.map (fun v => npClip v 0 1)))) = 4 := by
    rw [lastDim_map_val]; exact ho4
  have hsh' : cubeShape (b.data.map (fun row => row.map (fun px => px.map (fun v => npClip v 0 1)))) =
      cubeShape (o.data.map (fun row => row.map (fun px => px.map (fun v => npClip v 0 1)))) := by
    rw [cubeShape_map_pix, cubeShape_map_pix]; exact hsh
  simp only [alphaBlend]
  rw [if_neg (by simp [hb']), if_neg (by simp [ho']), if_neg (by simp [hsh'])]
  refine ⟨_, rfl, rfl, ?_, ?_, ?_⟩
  · rw [cubeShape_zip_map _ _ _ hsh', cubeShape_map_pix]
  · intro v hv
    obtain ⟨p1, p2, hvp⟩ := mem_entries_zip_map _ _ _ v hv
    exact blendPix_vals p1 p2 v hvp
  · intro hH hW
    have h1 := cubeShape_map_pix b.data (fun px => px.map (fun v => npClip v 0 1))
    exact lastDim_zip_map_len _ _ _ 3 (fun p q => by simp [blendPix])
      (h1 ▸ hH) (h1 ▸ hW) hsh'

theorem resize2d_ok (m : Mat) (hw : Nat × Nat) (h1 : 0 < hw.1)
    (hm : (m.length ≠ 0 ∧ (m.headD []).length ≠ 0) ∨ matShape m = hw) :
    ∃ r, resize2d m hw = .ok r ∧ matShape r = hw := by
  unfold resize2d
  by_cases he : matShape m = hw
  · rw [if_pos he]
    exact ⟨m, rfl, he⟩
  · rw [if_neg he]
    rcases hm with ⟨hL, hW⟩ | he2
    · rw [if_neg (by push_neg; exact ⟨hL, hW⟩)]
      refine ⟨_, rfl, ?_⟩
      obtain ⟨n, hn⟩ : ∃ n, hw.1 = n + 1 := ⟨hw.1 - 1, by omega⟩
      obtain ⟨a, b⟩ := hw
      simp only at hn
      subst hn
      simp [matShape, List.range_succ_eq_map]
    · exact absurd he2 he

theorem ensureRgb_ok_lastDim (img : NpImage) (out : Img3)
    (h : ensureRgb img = .ok out) : lastDim out.data = 3 := by
  cases img with
  | gray m dt =>
    have hrw : ensureRgb (NpImage.gray m dt) =
        (ensureRgbSteps (m.map (fun row => row.map (fun v => [v, v, v])))).map
          (fun t => { data := t, dtype := dt }) := rfl
    rw [hrw] at h
    cases hs : ensureRgbSteps (m.map (fun row => row.map (fun v => [v, v, v]))) with
    | error e => rw [hs] at h; cases h
    | ok t =>
      rw [hs] at h
      cases h
      exact ensureRgbSteps_ok_lastDim _ _ hs
  | color t dt =>
    have hrw : ensureRgb (NpImage.color t dt) =
        (ensureRgbSteps t).map (fun t2 => { data := t2, dtype := dt }) := rfl
    rw [hrw] at h
    cases hs : ensureRgbSteps t with
    | error e => rw [hs] at h; cases h
    | ok t2 =>
      rw [hs] at h
      cases h
      exact ensureRgbSteps_ok_lastDim _ _ hs

theorem ensureRgb_ok_shape (img : NpImage) (out : Img3)
    (h : ensureRgb img = .ok out) : cubeShape out.data = npShape2 img := by
  cases img with
  | gray m dt =>
    have hrw : ensureRgb (NpImage.gray m dt) =
        (ensureRgbSteps (m.map (fun row => row.map (fun v => [v, v, v])))).map
          (fun t => { data := t, dtype := dt }) := rfl
    rw [hrw] at h
    cases hs : ensureRgbSteps (m.map (fun row => row.map (fun v => [v, v, v]))) with
    | error e => rw [hs] at h; cases h
    | ok t =>
      rw [hs] at h
      cases h
      rw [ensureRgbSteps_ok_shape _ _ hs, cubeShape_mat_map]
      rfl
  | color t dt =>
    have hrw : ensureRgb (NpImage.color t dt) =
        (ensureRgbSteps t).map (fun t2 => { data := t2, dtype := dt }) := rfl
    rw [hrw] at h
    cases hs : ensureRgbSteps t with
    | error e => rw [hs] at h; cases h
    | ok t2 =>
      rw [hs] at h
      cases h
      exact ensureRgbSteps_ok_shape _ _ hs

theorem pos_dims_of_lastDim3 (t : Cube) (h : lastDim t = 3) :
    0 < (cubeShape t).1 ∧ 0 < (cubeShape t).2 := by
  cases t with
  | nil => simp [lastDim] at h
  | cons r rs =>
    cases r with
    | nil => simp [lastDim] at h
    | cons p ps => simp [cubeShape]

theorem cubeShape_signedRgba (hm : Mat) (amin amax : ℚ) :
    cubeShape (signedHeatToRgba hm amin amax) = matShape hm :=
  cubeShape_mat_map hm _

theorem lastDim_signedRgba (hm : Mat) (amin amax : ℚ)
    (hH : 0 < (matShape hm).1) (hW : 0 < (matShape hm).2) :
    lastDim (signedHeatToRgba hm amin amax) = 4 := by
  cases hm with
  | nil => simp [matShape] at hH
  | cons r rs =>
    cases r with
    | nil => simp [matShape] at hW
    | cons v vs => simp [signedHeatToRgba, signedPixelRgba, lastDim]

theorem lastDim_mat_map4 (hm : Mat) (F : ℚ → List ℚ) (hF : ∀ v, (F v).length = 4)
    (hH : 0 < (matShape hm).1) (hW : 0 < (matShape hm).2) :
    lastDim (hm.map (fun row => row.map F)) = 4 := by
  cases hm with
  | nil => simp [matShape] at hH
  | cons r rs =>
    cases r with
    | nil => simp [matShape] at hW
    | cons v vs => simp [lastDim, hF]

theorem renderSignedOverlay_ok (base : NpImage) (heat : Mat) (cfg : OverlayConfig)
    (b3 : Img3) (hb : ensureRgb base = .ok b3)
    (hheat : (heat.length ≠ 0 ∧ (heat.headD []).length ≠ 0) ∨
      matShape heat = cubeShape (asFloat01 b3).data) :
    ∃ out : Img3, renderSignedOverlay base heat cfg = .ok out ∧
      out.dtype = .u8 ∧ cubeShape out.data = npShape2 base ∧
      lastDim out.data = 3 ∧ ∀ v ∈ cubeEntries out.data, isU8Val v := by
  have h3 : lastDim b3.data = 3 := ensureRgb_ok_lastDim _ _ hb
  have hsh3 : cubeShape b3.data = npShape2 base := ensureRgb_ok_shape _ _ hb
  have hld : lastDim (asFloat01 b3).data = 3 := by
    rw [asFloat01_lastDim]; exact h3
  have hshb : cubeShape (asFloat01 b3).data = npShape2 base := by
    rw [asFloat01_shape]; exact hsh3
  obtain ⟨hH, hW⟩ := pos_dims_of_lastDim3 _ hld
  obtain ⟨heat1, hres, hshh⟩ : ∃ h1,
      resizeIfNeeded heat (cubeShape (asFloat01 b3).data) = Except.ok h1 ∧
      matShape h1 = cubeShape (asFloat01 b3).data := by
    unfold resizeIfNeeded
    by_cases hc : matShape heat = cubeShape (asFloat01 b3).data
    · exact ⟨heat, by rw [if_pos hc], hc⟩
    · rw [if_neg hc]
      rcases hheat with hne | he2
      · exact resize2d_ok heat _ hH (Or.inl hne)
      · exact absurd he2 hc
  have hsh2 : matShape (clipAndNormalizeSigned heat1 cfg.clip_percentile) =
      cubeShape (asFloat01 b3).data := by
    rw [matShape_clip_signed]; exact hshh
  have hrgba_sh : cubeShape (signedHeatToRgba
      (clipAndNormalizeSigned heat1 cfg.clip_percentile) cfg.alpha_min cfg.alpha_max) =
      cubeShape (asFloat01 b3).data := by
    rw [cubeShape_signedRgba]; exact hsh2
  have hrgba_ld : lastDim (signedHeatToRgba
      (clipAndNormalizeSigned heat1 cfg.clip_percentile) cfg.alpha_min cfg.alpha_max) = 4 :=
    lastDim_signedRgba _ _ _ (hsh2 ▸ hH) (hsh2 ▸ hW)
  obtain ⟨out0, hbl, hdty, hshape0, hvals0, hld0⟩ :=
    alphaBlend_ok (asFloat01 b3)
      { data := signedHeatToRgba (clipAndNormalizeSigned heat1 cfg.clip_percentile)
          cfg.alpha_min cfg.alpha_max, dtype := .f32 }
      hld hrgba_ld (by rw [hrgba_sh])
  have hld3 : lastDim out0.data = 3 := hld0 hH hW
  have hfin : ensureRgb (.color out0.data out0.dtype) =
      .ok { data := out0.data, dtype := out0.dtype } :=
    ensureRgb_color_lastDim3 _ _ hld3
  have hunf : renderSignedOverlay base heat cfg =
      Except.bind (ensureRgb base) (fun b3x =>
        Except.bind (resizeIfNeeded heat (cubeShape (asFloat01 b3x).data))
          (fun h1x =>
            Except.bind (alphaBlend (asFloat01 b3x)
              { data := signedHeatToRgba (clipAndNormalizeSigned h1x cfg.clip_percentile)
                  cfg.alpha_min cfg.alpha_max, dtype := .f32 })
              (fun outx => ensureRgb (.color outx.data outx.dtype)))) := by
    unfold renderSignedOverlay
    rfl
  refine ⟨{ data := out0.data, dtype := out0.dtype }, ?_, hdty, ?_, hld3, hvals0⟩
  · rw [hunf, hb]
    simp only [Except.bind]
    rw [hres]
    simp only [Except.bind]
    rw [hbl]
    simp only [Except.bind]
    exact hfin
  · rw [hshape0]
    exact hshb

theorem renderUnsignedOverlay_ok (base : NpImage) (imp : Mat) (cfg : OverlayConfig)
    (b3 : Img3) (hb : ensureRgb base = .ok b3)
    (himp : (imp.length ≠ 0 ∧ (imp.headD []).length ≠ 0) ∨
      matShape imp = cubeShape (asFloat01 b3).data) :
    ∃ out : Img3, renderUnsignedOverlay base imp cfg = .ok out ∧
      out.dtype = .u8 ∧ cubeShape out.data = npShape2 base ∧
      lastDim out.data = 3 ∧ ∀ v ∈ cubeEntries out.data, isU8Val v := by
  have h3 : lastDim b3.data = 3 := ensureRgb_ok_lastDim _ _ hb
  have hsh3 : cubeShape b3.data = npShape2 base := ensureRgb_ok_shape _ _ hb
  have hld : lastDim (asFloat01 b3).data = 3 := by
    rw [asFloat01_lastDim]; exact h3
  have hshb : cubeShape (asFloat01 b3).data = npShape2 base := by
    rw [asFloat01_shape]; exact hsh3
  obtain ⟨hH, hW⟩ := pos_dims_of_lastDim3 _ hld
  obtain ⟨imp1, hres, hshh⟩ : ∃ i1,
      resizeIfNeeded imp (cubeShape (asFloat01 b3).data) = Except.ok i1 ∧
      matShape i1 = cubeShape (asFloat01 b3).data := by
    unfold resizeIfNeeded
    by_cases hc : matShape imp = cubeShape (asFloat01 b3).data
    · exact ⟨imp, by rw [if_pos hc], hc⟩
    · rw [if_neg hc]
      rcases himp with hne | he2
      · exact resize2d_ok imp _ hH (Or.inl hne)
      · exact absurd he2 hc
  have hsh2 : matShape (imp1.map (fun row => row.map (fun v => npClip v 0 1))) =
      cubeShape (asFloat01 b3).data := by
    rw [matShape_map]; exact hshh
  have hrgba_sh : cubeShape ((imp1.map (fun row => row.map (fun v => npClip v 0 1))).map
      (fun row => row.map (fun v =>
        [(1 : ℚ), 11 / 20, 0,
          npClip (cfg.alpha_min + (cfg.alpha_max - cfg.alpha_min) * v) 0 1]))) =
      cubeShape (asFloat01 b3).data := by
    rw [cubeShape_mat_map]; exact hsh2
  have hrgba_ld : lastDim ((imp1.map (fun row => row.map (fun v => npClip v 0 1))).map
      (fun row => row.map (fun v =>
        [(1 : ℚ), 11 / 20, 0,
          npClip (cfg.alpha_min + (cfg.alpha_max - cfg.alpha_min) * v) 0 1]))) = 4 :=
    lastDim_mat_map4 _ _ (fun v => rfl) (hsh2 ▸ hH) (hsh2 ▸ hW)
  obtain ⟨out0, hbl, hdty, hshape0, hvals0, hld0⟩ :=
    alphaBlend_ok (asFloat01 b3)
      { data := (imp1.map (fun row => row.map (fun v => npClip v 0 1))).map
          (fun row => row.map (fun v =>
            [(1 : ℚ), 11 / 20, 0,
              npClip (cfg.alpha_min + (cfg.alpha_max - cfg.alpha_min) * v) 0 1])),
        dtype := .f32 }
      hld hrgba_ld (by rw [hrgba_sh])
  have hld3 : lastDim out0.data = 3 := hld0 hH hW
  have hfin : ensureRgb (.color out0.data out0.dtype) =
      .ok { data := out0.data, dtype := out0.dtype } :=
    ensureRgb_color_lastDim3 _ _ hld3
  have hunf : renderUnsignedOverlay base imp cfg =
      Except.bind (ensureRgb base) (fun b3x =>
        Except.bind (resizeIfNeeded imp (cubeShape (asFloat01 b3x).data))
          (fun i1x =>
            Except.bind (alphaBlend (asFloat01 b3x)
              { data := (i1x.map (fun row => row.map (fun v => npClip v 0 1))).map
                  (fun row => row.map (fun v =>
                    [(1 : ℚ), 11 / 20, 0,
                      npClip (cfg.alpha_min + (cfg.alpha_max - cfg.alpha_min) * v) 0 1])),
                dtype := .f32 })
              (fun outx => ensureRgb (.color outx.data outx.dtype)))) := by
    unfold renderUnsignedOverlay
    rfl
  refine ⟨{ data := out0.data, dtype := out0.dtype }, ?_, hdty, ?_, hld3, hvals0⟩
  · rw [hunf, hb]
    simp only [Except.bind]
    rw [hres]
    simp only [Except.bind]
    rw [hbl]
    simp only [Except.bind]
    exact hfin
  · rw [hshape0]
    exact hshb

theorem isU8Val_floorClip01 (w : ℚ) :
    isU8Val (((⌊npClip w 0 1 * 255⌋ : ℤ) : ℚ)) := by
  have h0 : (0 : ℚ) ≤ npClip w 0 1 := lo_le_npClip _ 0 1 (by norm_num)
  have h1 : npClip w 0 1 ≤ 1 := npClip_le_hi _ 0 1
  refine ⟨by rw [Int.floor_intCast], ?_, ?_⟩
  · have h2 : (0 : ℤ) ≤ ⌊npClip w 0 1 * 255⌋ := Int.floor_nonneg.mpr (by nlinarith)
    exact_mod_cast h2
  · have hle := Int.floor_le (npClip w 0 1 * 255)
    have h2 : npClip w 0 1 * 255 ≤ 255 := by nlinarith
    linarith

theorem isU8Val_floorClip255 (w : ℚ) :
    isU8Val (((⌊npClip w 0 255⌋ : ℤ) : ℚ)) := by
  have h0 : (0 : ℚ) ≤ npClip w 0 255 := lo_le_npClip _ 0 255 (by norm_num)
  have h1 : npClip w 0 255 ≤ 255 := npClip_le_hi _ 0 255
  refine ⟨by rw [Int.floor_intCast], ?_, ?_⟩
  · have h2 : (0 : ℤ) ≤ ⌊npClip w 0 255⌋ := Int.floor_nonneg.mpr h0
    exact_mod_cast h2
  · have hle := Int.floor_le (npClip w 0 255)
    linarith

theorem lungToUint8Rgb_ok (img : Img3) (h3 : lastDim img.data = 3) :
    ∃ out, lungToUint8Rgb img = .ok out ∧ out.dtype = .u8 ∧
      cubeShape out.data = cubeShape img.data ∧ lastDim out.data = 3 ∧
      ∀ v ∈ cubeEntries out.data, isU8Val v := by
  unfold lungToUint8Rgb
  rw [if_neg (by simp [h3])]
  refine ⟨_, rfl, rfl, cubeShape_map_pix _ _, ?_, ?_⟩
  · rw [lastDim_map_val]
    exact h3
  · intro v hv
    rw [cubeEntries_map_val] at hv
    obtain ⟨w, _, rfl⟩ := List.mem_map.mp hv
    exact isU8Val_floorClip01 w

theorem lungAlphaBlend_ok (b o : Img3)
    (hb3 : lastDim b.data = 3) (ho4 : lastDim o.data = 4)
    (hsh : cubeShape b.data = cubeShape o.data)
    (hH : 0 < (cubeShape b.data).1) (hW : 0 < (cubeShape b.data).2) :
    ∃ out : Img3, lungAlphaBlendRgb01Rgba01 b o = .ok out ∧
      out.dtype = .u8 ∧ cubeShape out.data = cubeShape b.data ∧
      ∀ v ∈ cubeEntries out.data, isU8Val v := by
  have hb' : lastDim (b.data.map (fun row => row.map (fun px => px.map (fun v => npClip v 0 1)))) = 3 := by
    rw [lastDim_map_val]; exact hb3
  have ho' : lastDim (o.data.map (fun row => row.map (fun px => px.map (fun v => npClip v 0 1)))) = 4 := by
    rw [lastDim_map_val]; exact ho4
  have hsh' : cubeShape (b.data.map (fun row => row.map (fun px => px.map (fun v => npClip v 0 1)))) =
      cubeShape (o.data.map (fun row => row.map (fun px => px.map (fun v => npClip v 0 1)))) := by
    rw [cubeShape_map_pix, cubeShape_map_pix]; exact hsh
  have h1 := cubeShape_map_pix b.data (fun px => px.map (fun v => npClip v 0 1))
  simp only [lungAlphaBlendRgb01Rgba01]
  rw [if_neg (by simp [hb']), if_neg (by simp [ho']), if_neg (by simp [hsh'])]
  have hld3 : lastDim ((b.data.map (fun row => row.map (fun px => px.map (fun v => npClip v 0 1)))).zip
        (o.data.map (fun row => row.map (fun px => px.map (fun v => npClip v 0 1)))) |>.map
        (fun ro => (ro.1.zip ro.2).map (fun p =>
          (List.range 3).map (fun k =>
            p.1.getD k 0 * (1 - p.2.getD 3 0) + p.2.getD k 0 * p.2.getD 3 0)))) = 3 :=
    lastDim_zip_map_len _ _
      (fun p1 p2 => (List.range 3).map (fun k =>
        p1.getD k 0 * (1 - p2.getD 3 0) + p2.getD k 0 * p2.getD 3 0))
      3 (fun p q => by simp) (h1 ▸ hH) (h1 ▸ hW) hsh'
  obtain ⟨out, hok, hdt, hshp, hld, hvals⟩ := lungToUint8Rgb_ok
    { data := ((b.data.map (fun row => row.map (fun px => px.map (fun v => npClip v 0 1)))).zip
        (o.data.map (fun row => row.map (fun px => px.map (fun v => npClip v 0 1)))) |>.map
        (fun ro => (ro.1.zip ro.2).map (fun p =>
          (List.range 3).map (fun k =>
            p.1.getD k 0 * (1 - p.2.getD 3 0) + p.2.getD k 0 * p.2.getD 3 0)))),
      dtype := .f32 } hld3
  refine ⟨out, hok, hdt, ?_, hvals⟩
  rw [hshp]
  show cubeShape (_ : Cube) = _
  rw [cubeShape_zip_map _ _
    (fun p1 p2 => (List.range 3).map (fun k =>
      p1.getD k 0 * (1 - p2.getD 3 0) + p2.getD k 0 * p2.getD 3 0)) hsh']
  rw [cubeShape_map_pix]

theorem lungSignedRgba_shape (hm : Mat) (amin amax : ℚ) :
    cubeShape (lungSignedHeatToRgba hm amin amax) = matShape hm :=
  cubeShape_mat_map hm _

theorem lungSignedRgba_lastDim (hm : Mat) (amin amax : ℚ)
    (hH : 0 < (matShape hm).1) (hW : 0 < (matShape hm).2) :
    lastDim (lungSignedHeatToRgba hm amin amax) = 4 :=
  lastDim_mat_map4 hm _ (fun v => rfl) hH hW

theorem lungRenderSigned_ok (baseRgb01 : Img3) (heat : Mat) (cfg : OverlayConfig)
    (h3 : lastDim baseRgb01.data = 3)
    (hH : 0 < (cubeShape baseRgb01.data).1) (hW : 0 < (cubeShape baseRgb01.data).2)
    (hsh : matShape heat = cubeShape baseRgb01.data) :
    ∃ out : Img3, lungRenderSignedOverlayRgb01 baseRgb01 heat cfg = .ok out ∧
      out.dtype = .u8 ∧ cubeShape out.data = cubeShape baseRgb01.data ∧
      ∀ v ∈ cubeEntries out.data, isU8Val v := by
  have hb' : lastDim (baseRgb01.data.map (fun row => row.map (fun px => px.map (fun v => npClip v 0 1)))) = 3 := by
    rw [lastDim_map_val]; exact h3
  have h1 := cubeShape_map_pix baseRgb01.data (fun px => px.map (fun v => npClip v 0 1))
  have hsh1 : matShape heat = cubeShape (baseRgb01.data.map
      (fun row => row.map (fun px => px.map (fun v => npClip v 0 1)))) := by
    rw [h1]; exact hsh
  have hshn : matShape (lungClipAndNormalizeSigned heat cfg.clip_percentile) = matShape heat := by
    rw [lungClip_eq_audio]
    exact matShape_clip_signed heat _
  simp only [lungRenderSignedOverlayRgb01]
  rw [if_neg (by simp [hb']), if_neg (by simp [hsh1])]
  obtain ⟨out, hok, hdt, hshp, hvals⟩ := lungAlphaBlend_ok
    { data := baseRgb01.data.map (fun row => row.map (fun px => px.map (fun v => npClip v 0 1))),
      dtype := .f32 }
    { data := lungSignedHeatToRgba (lungClipAndNormalizeSigned heat cfg.clip_percentile)
        cfg.alpha_min cfg.alpha_max, dtype := .f32 }
    hb'
    (lungSignedRgba_lastDim _ _ _ (by rw [hshn, hsh]; exact hH) (by rw [hshn, hsh]; exact hW))
    (by rw [lungSignedRgba_shape, hshn, hsh1])
    (h1 ▸ hH) (h1 ▸ hW)
  refine ⟨out, hok, hdt, ?_, hvals⟩
  rw [hshp]
  exact h1

theorem lungRenderSigned_mismatch (baseRgb01 : Img3) (heat : Mat) (cfg : OverlayConfig)
    (h3 : lastDim baseRgb01.data = 3)
    (hne : matShape heat ≠ cubeShape baseRgb01.data) :
    lungRenderSignedOverlayRgb01 baseRgb01 heat cfg =
      .error (.valueError "signed_heat must match spatial shape") := by
  have hb' : lastDim (baseRgb01.data.map (fun row => row.map (fun px => px.map (fun v => npClip v 0 1)))) = 3 := by
    rw [lastDim_map_val]; exact h3
  have h1 := cubeShape_map_pix baseRgb01.data (fun px => px.map (fun v => npClip v 0 1))
  simp only [lungRenderSignedOverlayRgb01]
  rw [if_neg (by simp [hb']), if_pos (by rw [h1]; exact hne)]

/-- dtype of a raw input image. -/
def npImageDtype : NpImage → Dty
  | .gray _ dt => dt
  | .color _ dt => dt

/-- All entries of a raw input image. -/
def npImageEntries : NpImage → List ℚ
  | .gray m _ => matEntries m
  | .color t _ => cubeEntries t

theorem ensureRgb_ok_dtype (img : NpImage) (out : Img3)
    (h : ensureRgb img = .ok out) : out.dtype = npImageDtype img := by
  cases img with
  | gray m dt =>
    have hrw : ensureRgb (NpImage.gray m dt) =
        (ensureRgbSteps (m.map (fun row => row.map (fun v => [v, v, v])))).map
          (fun t => { data := t, dtype := dt }) := rfl
    rw [hrw] at h
    cases hs : ensureRgbSteps (m.map (fun row => row.map (fun v => [v, v, v]))) with
    | error e => rw [hs] at h; cases h
    | ok t =>
      rw [hs] at h
      cases h
      rfl
  | color t dt =>
    have hrw : ensureRgb (NpImage.color t dt) =
        (ensureRgbSteps t).map (fun t2 => { data := t2, dtype := dt }) := rfl
    rw [hrw] at h
    cases hs : ensureRgbSteps t with
    | error e => rw [hs] at h; cases h
    | ok t2 =>
      rw [hs] at h
      cases h
      rfl

theorem stacked_entries (m : Mat) (v : ℚ)
    (hv : v ∈ cubeEntries (m.map (fun row => row.map (fun w => [w, w, w])))) :
    v ∈ matEntries m := by
  rw [mem_cubeEntries] at hv
  obtain ⟨row, hrow, px, hpx, hvpx⟩ := hv
  obtain ⟨row0, hrow0, rfl⟩ := List.mem_map.mp hrow
  obtain ⟨w, hw, rfl⟩ := List.mem_map.mp hpx
  have : v = w := by simpa using hvpx
  rw [this]
  exact List.mem_flatten.mpr ⟨row0, hrow0, hw⟩

theorem ensureRgb_ok_entries (img : NpImage) (out : Img3)
    (h : ensureRgb img = .ok out) :
    ∀ v ∈ cubeEntries out.data, v ∈ npImageEntries img := by
  cases img with
  | gray m dt =>
    have hrw : ensureRgb (NpImage.gray m dt) =
        (ensureRgbSteps (m.map (fun row => row.map (fun v => [v, v, v])))).map
          (fun t => { data := t, dtype := dt }) := rfl
    rw [hrw] at h
    cases hs : ensureRgbSteps (m.map (fun row => row.map (fun v => [v, v, v]))) with
    | error e => rw [hs] at h; cases h
    | ok t =>
      rw [hs] at h
      cases h
      intro v hv
      exact stacked_entries m v (ensureRgbSteps_ok_entries _ _ hs v hv)
  | color t dt =>
    have hrw : ensureRgb (NpImage.color t dt) =
        (ensureRgbSteps t).map (fun t2 => { data := t2, dtype := dt }) := rfl
    rw [hrw] at h
    cases hs : ensureRgbSteps t with
    | error e => rw [hs] at h; cases h
    | ok t2 =>
      rw [hs] at h
      cases h
      exact ensureRgbSteps_ok_entries _ _ hs

theorem ensureRgbUint8_unfold (image : NpImage) : ensureRgbUint8 image =
    Except.bind (ensureRgb image) (fun img =>
      if img.dtype = .u8 then Except.ok img
      else
        match cubeEntries img.data with
        | [] => .error (.valueError "zero-size array reduction has no identity")
        | e :: es =>
          Except.ok { data :=
            (if es.foldl max e ≤ 1 then
              img.data.map (fun row => row.map (fun px => px.map (fun v => v * 255)))
            else img.data).map (fun row => row.map (fun px => px.map
              (fun v => ((⌊npClip v 0 255⌋ : ℤ) : ℚ)))), dtype := .u8 }) := rfl

theorem ensureRgbUint8_ok_u8 (image : NpImage) (u : Img3)
    (h : ensureRgbUint8 image = .ok u)
    (hcons : npImageDtype image = .u8 → ∀ v ∈ npImageEntries image, isU8Val v) :
    isUint8Rgb255 u ∧ lastDim u.data = 3 := by
  rw [ensureRgbUint8_unfold] at h
  cases hi : ensureRgb image with
  | error e => rw [hi] at h; cases h
  | ok i =>
    rw [hi] at h
    simp only [Except.bind] at h
    by_cases hdt : i.dtype = Dty.u8
    · rw [if_pos hdt] at h
      cases h
      refine ⟨⟨hdt, ?_⟩, ensureRgb_ok_lastDim _ _ hi⟩
      intro v hv
      have hd := ensureRgb_ok_dtype _ _ hi
      exact hcons (by rw [← hd]; exact hdt) v (ensureRgb_ok_entries _ _ hi v hv)
    · rw [if_neg hdt] at h
      cases hce : cubeEntries i.data with
      | nil => rw [hce] at h; cases h
      | cons e es =>
        rw [hce] at h
        cases h
        constructor
        · refine ⟨rfl, ?_⟩
          intro v hv
          rw [cubeEntries_map_val] at hv
          obtain ⟨w, _, rfl⟩ := List.mem_map.mp hv
          exact isU8Val_floorClip255 w
        · rw [lastDim_map_val]
          split
          · rw [lastDim_map_val]
            exact ensureRgb_ok_lastDim _ _ hi
          · exact ensureRgb_ok_lastDim _ _ hi

theorem shapExplain_double_failure (e1 e2 : PyErr) (base : NpImage)
    (cfg : OverlayConfig) :
    shapExplain (.error e1) (.error e2) base cfg = ensureRgbUint8 base := rfl

theorem gradcamHeatmap_bounds (convOut grads : Tensor4) :
    ∀ v ∈ matEntries (gradcamHeatmap convOut grads), 0 ≤ v ∧ v ≤ 1 := by
  intro v hv
  unfold gradcamHeatmap at hv
  exact normalize_01_bounds _ _ (by norm_num) v hv

theorem lungOverlayHeatmap_float01 (baseGray heat : Mat) (alpha : ℚ)
    (threshold : Option ℚ) (out : Img3)
    (h : lungOverlayHeatmap baseGray heat alpha threshold = .ok out) :
    out.dtype = .f32 ∧ ∀ v ∈ cubeEntries out.data, 0 ≤ v ∧ v ≤ 1 := by
  unfold lungOverlayHeatmap at h
  split at h
  · cases h
  · cases h
    refine ⟨rfl, ?_⟩
    intro v hv
    obtain ⟨p1, p2, hvp⟩ := mem_entries_zip_map _ _
      (fun p1 p2 => (List.range 3).map (fun k =>
        npClip ((1 - alpha) * p1.getD k 0 + alpha * p2.getD k 0) 0 1)) v hv
    rw [List.mem_map] at hvp
    obtain ⟨k, _, rfl⟩ := hvp
    exact ⟨lo_le_npClip _ 0 1 (by norm_num), npClip_le_hi _ 0 1⟩

theorem lungGradcamRenderTail_float01 (baseImage heatmap : Mat) (out : Img3)
    (h : lungGradcamRenderTail baseImage heatmap = .ok out) :
    out.dtype = .f32 ∧ ∀ v ∈ cubeEntries out.data, 0 ≤ v ∧ v ≤ 1 :=
  lungOverlayHeatmap_float01 _ _ _ _ _ h

theorem lungLimeFinalize_float01 (overlay : Cube) :
    (lungLimeFinalize overlay).dtype = .f32 ∧
    ∀ v ∈ cubeEntries (lungLimeFinalize overlay).data, 0 ≤ v ∧ v ≤ 1 := by
  refine ⟨rfl, ?_⟩
  intro v hv
  unfold lungLimeFinalize at hv
  rw [cubeEntries_map_val] at hv
  obtain ⟨w, _, rfl⟩ := List.mem_map.mp hv
  exact ⟨lo_le_npClip _ 0 1 (by norm_num), npClip_le_hi _ 0 1⟩

theorem zip_self_mem (l : List ℚ) (q : ℚ × ℚ) (hq : q ∈ l.zip l) : q.1 = q.2 := by
  induction l with
  | nil => cases hq
  | cons x xs ih =>
    rcases List.mem_cons.mp hq with h | h
    · rw [h]
    · exact ih h

theorem matEntries_zerosLike_ne (m : Mat) (hne : matEntries m ≠ []) :
    matEntries (zerosLike m) ≠ [] := by
  unfold zerosLike
  rw [matEntries_map]
  simpa using hne

theorem normalize_01_const (m : Mat) (hne : matEntries m ≠ [])
    (hc : npMax (matEntries m) = npMin (matEntries m)) :
    normalize_01 m = zerosLike m := by
  unfold normalize_01
  rw [if_neg (by simpa using hne)]
  apply matMap_congr_zero
  intro v hv
  have h1 := npMin_le (matEntries m) v hv
  have h2 := le_npMax (matEntries m) v hv
  have hveq : v = npMin (matEntries m) := le_antisymm (hc ▸ h2) h1
  rw [hveq, sub_self, zero_div]

theorem normalize_01_zeros (m : Mat) (hne : matEntries (zerosLike m) ≠ []) :
    normalize_01 (zerosLike m) = zerosLike m := by
  have hz := zerosLike_entries m
  obtain ⟨x, hx⟩ := List.exists_mem_of_ne_nil _ hne
  have hmn : npMin (matEntries (zerosLike m)) = 0 := by
    refine le_antisymm ?_ (le_npMin _ 0 hne (fun y hy => by rw [hz y hy]))
    have := npMin_le _ x hx
    rw [hz x hx] at this
    exact this
  have hmx : npMax (matEntries (zerosLike m)) = 0 := by
    refine le_antisymm (npMax_le _ 0 hne (fun y hy => by rw [hz y hy])) ?_
    have := le_npMax _ x hx
    rw [hz x hx] at this
    exact this
  unfold normalize_01
  rw [if_neg (by simpa using hne)]
  calc (zerosLike m).map (fun row => row.map (fun v =>
        (v - npMin (matEntries (zerosLike m))) /
          (npMax (matEntries (zerosLike m)) - npMin (matEntries (zerosLike m)) + 1 / 10 ^ 8)))
      = zerosLike (zerosLike m) := by
        apply matMap_congr_zero
        intro v hv
        rw [hz v hv, hmn, hmx]
        norm_num
    _ = zerosLike m := zerosLike_zerosLike m

theorem normalize_01_second_dev (m : Mat) (hne : matEntries m ≠ [])
    (hD : 1 / 100 ≤ npMax (matEntries m) - npMin (matEntries m)) :
    ∀ p ∈ (matEntries (normalize_01 (normalize_01 m))).zip (matEntries (normalize_01 m)),
      |p.1 - p.2| ≤ 1 / 10 ^ 6 := by
  intro p hp
  have heps : (0 : ℚ) < 1 / 10 ^ 8 := by norm_num
  have hmm := normalize_01_min_max m (1 / 10 ^ 8) heps hne
  have hne1 := normalize_01_nonempty m (1 / 10 ^ 8) hne
  have hent2 := normalize_01_entries (normalize_01 m) (1 / 10 ^ 8) hne1
  rw [hmm.1, hmm.2] at hent2
  rw [hent2, List.zip_map_left] at hp
  obtain ⟨q, hq, rfl⟩ := List.mem_map.mp hp
  have hqq := zip_self_mem _ q hq
  have hw : q.2 ∈ matEntries (normalize_01 m) := (List.of_mem_zip hq).2
  have hw0 : 0 ≤ q.2 := by
    have := npMin_le _ _ hw
    rw [hmm.1] at this
    exact this
  have hwM : q.2 ≤ (npMax (matEntries m) - npMin (matEntries m)) /
      (npMax (matEntries m) - npMin (matEntries m) + 1 / 10 ^ 8) := by
    have := le_npMax _ _ hw
    rw [hmm.2] at this
    exact this
  have hdev := second_normalize_dev (npMax (matEntries m) - npMin (matEntries m)) q.2 hD hw0 hwM
  simp only [Prod.map, id] at *
  rw [hqq]
  simpa [sub_zero] using hdev

/- ------------------------------------------------------------------ -/
/- Claim theorems                                                      -/
/- ------------------------------------------------------------------ -/

/-- C1: for every classifier whose masking-based SHAP computation raises
(`shapErr`) and whose gradient-saliency computation also raises
(`gradErr`), and every valid base image (one `ensure_rgb_uint8` accepts),
`XaiShap.explain` does not raise and returns exactly
`ensure_rgb_uint8(base_image)`. -/
theorem shap_fallback_never_throws (shapErr gradErr : PyErr) (base : NpImage)
    (cfg : OverlayConfig) (u : Img3) (h : ensureRgbUint8 base = .ok u) :
    shapExplain (.error shapErr) (.error gradErr) base cfg = .ok u := by
  rw [shapExplain_double_failure]
  exact h

/-- Witness for C1 at a concrete uint8 grayscale base image. -/
theorem shap_fallback_never_throws_witness :
    ensureRgbUint8 (.gray [[120]] .u8) =
      .ok { data := [[[120, 120, 120]]], dtype := .u8 } ∧
    shapExplain (.error (.other "shap failed")) (.error (.other "gradient failed"))
      (.gray [[120]] .u8) {} = .ok { data := [[[120, 120, 120]]], dtype := .u8 } :=
  ⟨rfl, shap_fallback_never_throws (.other "shap failed") (.other "gradient failed")
    (.gray [[120]] .u8) {} { data := [[[120, 120, 120]]], dtype := .u8 } rfl⟩

/-- The sorted pair list behind `argsortAsc` is ascending in the value
component. -/
theorem argsort_pairs_sorted (probs : List ℚ) :
    (((List.range probs.length).map (fun i => (probs.getD i 0, i))).insertionSort
      (fun a b => a.1 ≤ b.1)).Pairwise (fun a b : ℚ × ℕ => a.1 ≤ b.1) := by
  haveI : IsTotal (ℚ × ℕ) (fun a b => a.1 ≤ b.1) := ⟨fun a b => le_total a.1 b.1⟩
  haveI : IsTrans (ℚ × ℕ) (fun a b => a.1 ≤ b.1) := ⟨fun a b c h1 h2 => le_trans h1 h2⟩
  exact List.sorted_insertionSort _ _

/-- Every pair of the sorted list carries the value at its own index. -/
theorem mem_argsort_pairs (probs : List ℚ) (p : ℚ × ℕ)
    (hp : p ∈ ((List.range probs.length).map (fun i => (probs.getD i 0, i))).insertionSort
      (fun a b => a.1 ≤ b.1)) : p.1 = probs.getD p.2 0 := by
  have hm := (List.perm_insertionSort (fun a b : ℚ × ℕ => a.1 ≤ b.1)
    ((List.range probs.length).map (fun i => (probs.getD i 0, i)))).mem_iff.mp hp
  simp only [List.mem_map] at hm
  obtain ⟨i, _, rfl⟩ := hm
  rfl

/-- The first label the lime library stores in `local_exp` scores no higher
than any other kept label: `np.argsort(probs)[-top_labels:]` lists the kept
labels in ascending probability order. -/
theorem limeLocalExpKeys_head_min (probs : List ℚ) (t : ℕ) (k : ℤ) (rest : List ℤ)
    (h : limeLocalExpKeys probs t = k :: rest) :
    ∀ j ∈ rest, probs.getD k.toNat 0 ≤ probs.getD j.toNat 0 := by
  unfold limeLocalExpKeys argsortAsc at h
  rw [← List.map_drop, List.map_map] at h
  set s := ((List.range probs.length).map (fun i => (probs.getD i 0, i))).insertionSort
    (fun a b => a.1 ≤ b.1) with hs
  have hpw : (s.drop (probs.length - t)).Pairwise (fun a b : ℚ × ℕ => a.1 ≤ b.1) :=
    (argsort_pairs_sorted probs).sublist (List.drop_sublist _ _)
  cases hd : s.drop (probs.length - t) with
  | nil => rw [hd] at h; exact absurd h (by simp)
  | cons p ps =>
    rw [hd] at h hpw
    rw [List.map_cons] at h
    injection h with hk hrest
    have hhead : ∀ q ∈ ps, p.1 ≤ q.1 := (List.pairwise_cons.mp hpw).1
    have hpmem : p ∈ s := (List.drop_sublist _ _).subset (hd ▸ List.mem_cons_self p ps)
    have hpval : p.1 = probs.getD p.2 0 := mem_argsort_pairs probs p hpmem
    intro j hj
    rw [← hrest] at hj
    obtain ⟨q, hq, rfl⟩ := List.mem_map.mp hj
    have hqmem : q ∈ s := (List.drop_sublist _ _).subset (hd ▸ List.mem_cons_of_mem p hq)
    have hqval : q.1 = probs.getD q.2 0 := mem_argsort_pairs probs q hqmem
    have hk2 : k.toNat = p.2 := by rw [← hk]; simp
    have hj2 : (((fun i => Int.ofNat i) ∘ fun p => p.2) q).toNat = q.2 := by simp
    rw [hk2, hj2, ← hpval, ← hqval]
    exact hhead q hq

/-- Unfolding the modelled `local_exp` dict on a non-empty key list. -/
theorem limeBuild_cons (probs : List ℚ) (t : ℕ) (w : ℤ → SegWeights) (k : ℤ)
    (rest : List ℤ) (h : limeLocalExpKeys probs t = k :: rest) :
    limeBuildLocalExp probs t w = (k, w k) :: rest.map (fun l => (l, w l)) := by
  unfold limeBuildLocalExp
  rw [h, List.map_cons]

unseal Rat.mul Rat.add Rat.sub Rat.inv in
/-- C4 counterexample: for a 2-class model with probabilities
`[0.3, 0.7]` (argmax = class 1), the lime library stores `local_exp` keys
in ascending probability order, so its first key is class 0; requesting the
absent label `-1` from the Perturbation-Surrogate weight selection falls
back to class 0's weights — NOT the model's top prediction's weights, and
no ValueError is raised: neither of the claim's two permitted behaviors. -/
theorem lime_fallback_not_top_prediction :
    argmaxFirst [3 / 10, 7 / 10] = 1 ∧
    limeLocalExpKeys [3 / 10, 7 / 10] 5 = [0, 1] ∧
    limeSelectWeights (limeBuildLocalExp [3 / 10, 7 / 10] 5
        (fun l => if l = 0 then [(0, -(1 / 2))] else [(0, 1 / 2)])) (-1) =
      .ok [(0, -(1 / 2))] ∧
    (limeBuildLocalExp [3 / 10, 7 / 10] 5
        (fun l => if l = 0 then [(0, -(1 / 2))] else [(0, 1 / 2)])).lookup 1 =
      some [(0, 1 / 2)] ∧
    ([((0 : ℤ), -(1 / 2))] : SegWeights) ≠ [(0, 1 / 2)] :=
  ⟨by decide, by decide, by rfl, by decide, by decide⟩

/-- C4 amended: the Gradient-Attribution explainer falls back to
`argmax(preds[0])` exactly when the requested index is out of range and
keeps an in-range index; the Perturbation-Surrogate explainer, for a label
absent from the lime `local_exp` dict, returns the FIRST stored label's
weights without raising — and that label scores no higher than any other
kept label (the lime library inserts labels in ascending probability
order), so the fallback is the lowest-scored kept label, not the model's
top prediction; its documented ValueError fires only when `local_exp` is
empty. -/
theorem invalid_class_index_amended :
    (∀ (preds0 : List ℚ) (ci : ℤ), ci < 0 ∨ (preds0.length : ℤ) ≤ ci →
      gradcamSelectClassIndex preds0 ci = argmaxFirst preds0) ∧
    (∀ (preds0 : List ℚ) (ci : ℤ), 0 ≤ ci → ci < (preds0.length : ℤ) →
      gradcamSelectClassIndex preds0 ci = ci.toNat) ∧
    (∀ (probs : List ℚ) (t : ℕ) (w : ℤ → SegWeights) (k : ℤ) (rest : List ℤ)
        (label : ℤ),
      limeLocalExpKeys probs t = k :: rest →
      (limeBuildLocalExp probs t w).lookup label = none →
      limeSelectWeights (limeBuildLocalExp probs t w) label = .ok (w k) ∧
      ∀ j ∈ rest, probs.getD k.toNat 0 ≤ probs.getD j.toNat 0) ∧
    (∀ label : ℤ, limeSelectWeights [] label = .error (.valueError
      "No LIME local explanation weights found for the requested label.")) := by
  refine ⟨?_, ?_, ?_, ?_⟩
  · intro preds0 ci h
    unfold gradcamSelectClassIndex
    rw [if_pos h]
  · intro preds0 ci h0 hlt
    unfold gradcamSelectClassIndex
    rw [if_neg (by push_neg; omega)]
  · intro probs t w k rest label hkeys hnone
    refine ⟨?_, limeLocalExpKeys_head_min probs t k rest hkeys⟩
    rw [limeBuild_cons probs t w k rest hkeys] at hnone ⊢
    unfold limeSelectWeights
    rw [hnone]
  · intro label
    rfl

unseal Rat.mul Rat.add Rat.sub Rat.inv in
/-- Witness for C4 amended: out-of-range indices -1 and 3 on a 3-class
prediction row fall back to the argmax index 1; an in-range index is kept;
on the 2-class probabilities `[0.3, 0.7]` a lookup miss returns class 0's
weights, whose probability is below the other kept label's. -/
theorem invalid_class_index_amended_witness :
    gradcamSelectClassIndex [1 / 10, 7 / 10, 1 / 5] (-1) =
      argmaxFirst [1 / 10, 7 / 10, 1 / 5] ∧
    gradcamSelectClassIndex [1 / 10, 7 / 10, 1 / 5] 3 =
      argmaxFirst [1 / 10, 7 / 10, 1 / 5] ∧
    gradcamSelectClassIndex [1 / 10, 7 / 10, 1 / 5] 2 = Int.toNat 2 ∧
    (limeSelectWeights (limeBuildLocalExp [3 / 10, 7 / 10] 5
        (fun l => if l = 0 then [(0, -(1 / 2))] else [(0, 1 / 2)])) (-1) =
      .ok [((0 : ℤ), -(1 / 2))] ∧
      ∀ j ∈ [(1 : ℤ)], List.getD ([3 / 10, 7 / 10] : List ℚ) (Int.toNat 0) 0 ≤
        List.getD ([3 / 10, 7 / 10] : List ℚ) j.toNat 0) ∧
    limeSelectWeights [] (-1) = .error (.valueError
      "No LIME local explanation weights found for the requested label.") :=
  ⟨invalid_class_index_amended.1 _ (-1) (by decide),
   invalid_class_index_amended.1 _ 3 (by decide),
   invalid_class_index_amended.2.1 _ 2 (by decide) (by decide),
   invalid_class_index_amended.2.2.1 [3 / 10, 7 / 10] 5
     (fun l => if l = 0 then [(0, -(1 / 2))] else [(0, 1 / 2)]) 0 [1] (-1)
     (by decide) (by decide),
   invalid_class_index_amended.2.2.2 (-1)⟩

/-- C5 counterexample: an unknown `XaiMethod` value reaching the lung
orchestrator's `detect` dispatch raises `ValueError("Unknown XAI method:
...")`, which `auto_handle_errors` re-raises as HTTP 500 — a server error,
not the 4xx client error the claim requires. -/
theorem unknown_xai_method_dispatch_500 :
    autoHandleErrors (lungDetectDispatch "saliency") =
      .error (500, "Unknown XAI method: saliency") ∧
    isClientError 500 = false :=
  ⟨rfl, rfl⟩

/-- C5 amended: a selector string outside the `XaiMethod` enum is rejected
by FastAPI form-binding with a 422 client error before `detect` runs; but
an unknown value that does reach the `detect` dispatch raises ValueError
with the explicit "Unknown XAI method" message, which `auto_handle_errors`
surfaces as HTTP 500 — a server error, never a 4xx. -/
theorem unknown_xai_method_amended (s : String)
    (hg : s ≠ "gradcam") (hl : s ≠ "lime") :
    bindXaiMethodSpec s = .error (422, "Input should be gradcam or lime") ∧
    isClientError 422 = true ∧
    lungDetectDispatch s = .error (.valueError ("Unknown XAI method: " ++ s)) ∧
    autoHandleErrors (lungDetectDispatch s) =
      .error (500, "Unknown XAI method: " ++ s) ∧
    isClientError 500 = false := by
  have hd : lungDetectDispatch s = .error (.valueError ("Unknown XAI method: " ++ s)) := by
    unfold lungDetectDispatch
    rw [if_neg hg, if_neg hl]
  refine ⟨?_, rfl, hd, ?_, rfl⟩
  · unfold bindXaiMethodSpec
    rw [if_neg (by push_neg; exact ⟨hg, hl⟩)]
  · rw [hd]
    rfl

/-- Witness for C5 amended at the concrete unknown selector "shap". -/
theorem unknown_xai_method_amended_witness :
    bindXaiMethodSpec "shap" = .error (422, "Input should be gradcam or lime") ∧
    isClientError 422 = true ∧
    lungDetectDispatch "shap" = .error (.valueError ("Unknown XAI method: " ++ "shap")) ∧
    autoHandleErrors (lungDetectDispatch "shap") =
      .error (500, "Unknown XAI method: " ++ "shap") ∧
    isClientError 500 = false :=
  unknown_xai_method_amended "shap" (by decide) (by decide)

unseal Rat.mul Rat.add Rat.sub Rat.inv in
/-- C7 counterexample: on `heat = [[5, -5], [0, 0]]` with
`clip_percentile = 50`, the clipping threshold is the 50th percentile of
`|heat| = [5, 5, 0, 0]` under numpy's linear interpolation, which is 5/2 —
not the 5 the claim states. -/
theorem clip_scenario_threshold_not_five :
    clipThreshold [[5, -5], [0, 0]] 50 = 5 / 2 ∧
    ¬ clipThreshold [[5, -5], [0, 0]] 50 = 5 := by
  constructor
  · decide
  · decide

unseal Rat.mul Rat.add Rat.sub Rat.inv in
/-- C7 amended: on `heat = [[5, -5], [0, 0]]` with `clip_percentile = 50`
the threshold is 5/2, and both services' `clip_and_normalize_signed`
return `[[c, -c], [0, 0]]` with `c = (5/2) / (5/2 + 1e-8)`, which is within
1e-8 of the claimed `[[1, -1], [0, 0]]`. -/
theorem clip_scenario_amended :
    clipThreshold [[5, -5], [0, 0]] 50 = 5 / 2 ∧
    clipAndNormalizeSigned [[5, -5], [0, 0]] 50 =
      [[250000000 / 250000001, -(250000000 / 250000001)], [0, 0]] ∧
    lungClipAndNormalizeSigned [[5, -5], [0, 0]] 50 =
      [[250000000 / 250000001, -(250000000 / 250000001)], [0, 0]] ∧
    |(250000000 / 250000001 : ℚ) - 1| < 1 / 10 ^ 8 := by
  refine ⟨by decide, by decide, by decide, ?_⟩
  rw [abs_sub_comm, abs_of_nonneg (by norm_num)]
  norm_num

/-- C8: for every all-zero 2-D heat array and every percentile in
`[0, 100]`, both services' `clip_and_normalize_signed` return the array
unchanged — i.e. the all-zero array of the same shape (the percentile of
the all-zero magnitudes is 0 ≤ 1e-12, which short-circuits to
`np.zeros_like`). -/
theorem clip_all_zero_degeneracy (heat : Mat) (p : ℚ)
    (hz : ∀ row ∈ heat, ∀ v ∈ row, v = 0) (h0 : 0 ≤ p) (h100 : p ≤ 100) :
    clipAndNormalizeSigned heat p = heat ∧
    lungClipAndNormalizeSigned heat p = heat := by
  have hze : ∀ v ∈ matEntries heat, v = 0 := by
    intro v hv
    obtain ⟨row, hrow, hvrow⟩ := List.mem_flatten.mp hv
    exact hz row hrow v hvrow
  have hmain : clipAndNormalizeSigned heat p = heat := by
    unfold clipAndNormalizeSigned
    split
    · rfl
    · have habs : ∀ x ∈ absFlat heat, x = 0 := by
        intro x hx
        obtain ⟨w, hw, rfl⟩ := List.mem_map.mp hx
        rw [hze w hw]
        simp
      have hthr : clipThreshold heat p = 0 := by
        unfold clipThreshold
        exact npPercentile_all_zero _ habs p
      rw [if_pos (by rw [hthr]; norm_num)]
      exact zerosLike_eq_self heat hz
  exact ⟨hmain, by rw [lungClip_eq_audio]; exact hmain⟩

/-- Witness for C8 on the all-zero 2x2 array with p = 50. -/
theorem clip_all_zero_degeneracy_witness :
    clipAndNormalizeSigned [[0, 0], [0, 0]] 50 = [[0, 0], [0, 0]] ∧
    lungClipAndNormalizeSigned [[0, 0], [0, 0]] 50 = [[0, 0], [0, 0]] :=
  clip_all_zero_degeneracy [[0, 0], [0, 0]] 50 (by decide) (by norm_num) (by norm_num)

/-- C6: every Grad-CAM heatmap — the rectified weighted activation sum
after `normalize_01` — lies elementwise in `[0, 1]`, and every output of
`clip_and_normalize_signed` (both services) lies elementwise in `[-1, 1]`. -/
theorem heatmap_range_invariants :
    (∀ (convOut grads : Tensor4), ∀ v ∈ matEntries (gradcamHeatmap convOut grads),
      0 ≤ v ∧ v ≤ 1) ∧
    (∀ (heat : Mat) (p : ℚ), ∀ v ∈ matEntries (clipAndNormalizeSigned heat p),
      -1 ≤ v ∧ v ≤ 1) ∧
    (∀ (heat : Mat) (p : ℚ), ∀ v ∈ matEntries (lungClipAndNormalizeSigned heat p),
      -1 ≤ v ∧ v ≤ 1) := by
  refine ⟨gradcamHeatmap_bounds, clip_signed_bounds, ?_⟩
  intro heat p
  rw [lungClip_eq_audio]
  exact clip_signed_bounds heat p

unseal Rat.mul Rat.add Rat.sub Rat.inv in
/-- Witness for C6 at concrete activations, gradients and heatmaps. -/
theorem heatmap_range_invariants_witness :
    ((0 : ℚ) ≤ 0 ∧ (0 : ℚ) ≤ 1) ∧
    (-1 ≤ (250000000 / 250000001 : ℚ) ∧ (250000000 / 250000001 : ℚ) ≤ 1) ∧
    (-1 ≤ (-(250000000 / 250000001) : ℚ) ∧ (-(250000000 / 250000001) : ℚ) ≤ 1) :=
  ⟨heatmap_range_invariants.1 [[[[2]]]] [[[[1]]]] 0 (by decide),
   heatmap_range_invariants.2.1 [[5, -5], [0, 0]] 50 (250000000 / 250000001) (by decide),
   heatmap_range_invariants.2.2 [[5, -5], [0, 0]] 50 (-(250000000 / 250000001)) (by decide)⟩

unseal Rat.mul Rat.add Rat.sub Rat.inv in
/-- C9 counterexample: for the non-empty, non-constant array
`A = [[0, 1e-12]]`, one application of `normalize_01` yields
`[[0, 1/10001]]` while the double application yields an entry ≈ 0.9999 —
the two differ by more than 1/2, far beyond any floating-point tolerance. -/
theorem normalize01_idempotence_fails_example :
    matEntries [[(0 : ℚ), 1 / 10 ^ 12]] ≠ [] ∧
    npMax (matEntries [[(0 : ℚ), 1 / 10 ^ 12]]) ≠
      npMin (matEntries [[(0 : ℚ), 1 / 10 ^ 12]]) ∧
    normalize_01 [[(0 : ℚ), 1 / 10 ^ 12]] = [[0, 1 / 10001]] ∧
    normalize_01 (normalize_01 [[(0 : ℚ), 1 / 10 ^ 12]]) =
      [[0, 100000000 / 100010001]] ∧
    1 / 2 < |(100000000 / 100010001 : ℚ) - 1 / 10001| := by
  refine ⟨by decide, by decide, by decide, by decide, ?_⟩
  rw [abs_of_nonneg (by norm_num)]
  norm_num

/-- C9 amended: double application of `normalize_01` deviates from a single
application by at most 1e-6 elementwise whenever the array's value range
`max - min` is at least 1/100 (with a range below the 1e-8 epsilon the two
can differ by order 1, see the counterexample); a constant array maps to
the all-zero array under both one and two applications; the lung-service
`normalize_01` is the same function. -/
theorem normalize01_idempotence_amended :
    (∀ m : Mat, matEntries m ≠ [] →
      1 / 100 ≤ npMax (matEntries m) - npMin (matEntries m) →
      ∀ p ∈ (matEntries (normalize_01 (normalize_01 m))).zip
        (matEntries (normalize_01 m)), |p.1 - p.2| ≤ 1 / 10 ^ 6) ∧
    (∀ m : Mat, matEntries m ≠ [] →
      npMax (matEntries m) = npMin (matEntries m) →
      normalize_01 m = zerosLike m ∧
      normalize_01 (normalize_01 m) = zerosLike m) ∧
    (∀ m : Mat, lungNormalize01 m = normalize_01 m) := by
  refine ⟨normalize_01_second_dev, ?_, lungNormalize01_eq_audio⟩
  intro m hne hc
  have h1 : normalize_01 m = zerosLike m := normalize_01_const m hne hc
  refine ⟨h1, ?_⟩
  rw [h1]
  exact normalize_01_zeros m (matEntries_zerosLike_ne m hne)

unseal Rat.mul Rat.add Rat.sub Rat.inv in
/-- Witness for C9 amended: the array `[[0, 1]]` has range 1 and its
second normalization deviates from the first by at most 1e-6 at the
concrete entry pair; the constant array `[[3, 3]]` normalizes to zero once
and twice. -/
theorem normalize01_idempotence_amended_witness :
    |(10000000000000000 / 10000000100000001 : ℚ) - 100000000 / 100000001| ≤ 1 / 10 ^ 6 ∧
    (normalize_01 [[(3 : ℚ), 3]] = zerosLike [[(3 : ℚ), 3]] ∧
      normalize_01 (normalize_01 [[(3 : ℚ), 3]]) = zerosLike [[(3 : ℚ), 3]]) ∧
    lungNormalize01 [[(0 : ℚ), 1]] = normalize_01 [[(0 : ℚ), 1]] :=
  ⟨normalize01_idempotence_amended.1 [[(0 : ℚ), 1]] (by decide) (by decide)
    (10000000000000000 / 10000000100000001, 100000000 / 100000001) (by decide),
   normalize01_idempotence_amended.2.1 [[(3 : ℚ), 3]] (by decide) (by decide),
   normalize01_idempotence_amended.2.2 [[(0 : ℚ), 1]]⟩

unseal Rat.mul Rat.add Rat.sub Rat.inv in
/-- C2 counterexample: a successful lung-service Grad-CAM `explain` call —
its rendering tail on base `[[0]]` with (reachable) heatmap `[[0]]` —
returns a FLOAT image `[[[0, 0, 0.225]]]` in `[0,1]`, whose dtype does not
represent 0-255 integers. -/
theorem lung_gradcam_overlay_not_uint8 :
    lungGradcamRenderTail [[0]] [[0]] =
      .ok { data := [[[0, 0, 9 / 40]]], dtype := .f32 } ∧
    ¬ isUint8Rgb255 { data := [[[0, 0, 9 / 40]]], dtype := .f32 } :=
  ⟨by rfl, by decide⟩

/-- C2 amended: the audio-service shared render paths (the signed and
unsigned overlay renderers, used by the LIME and SHAP explainers and the
SHAP fallbacks, and `ensure_rgb_uint8`) return uint8 RGB H×W×3 images with
integer entries in `[0, 255]`; the lung-service Grad-CAM rendering tail and
LIME finalization instead return float32 images with entries in `[0, 1]`
(converted to uint8 only downstream, at the transport helper). -/
theorem overlay_uint8_amended :
    (∀ (base : NpImage) (heat : Mat) (cfg : OverlayConfig) (b3 : Img3),
      ensureRgb base = .ok b3 →
      ((heat.length ≠ 0 ∧ (heat.headD []).length ≠ 0) ∨
        matShape heat = cubeShape (asFloat01 b3).data) →
      ∃ out, renderSignedOverlay base heat cfg = .ok out ∧
        isUint8Rgb255 out ∧ lastDim out.data = 3) ∧
    (∀ (base : NpImage) (imp : Mat) (cfg : OverlayConfig) (b3 : Img3),
      ensureRgb base = .ok b3 →
      ((imp.length ≠ 0 ∧ (imp.headD []).length ≠ 0) ∨
        matShape imp = cubeShape (asFloat01 b3).data) →
      ∃ out, renderUnsignedOverlay base imp cfg = .ok out ∧
        isUint8Rgb255 out ∧ lastDim out.data = 3) ∧
    (∀ (image : NpImage) (u : Img3), ensureRgbUint8 image = .ok u →
      (npImageDtype image = .u8 → ∀ v ∈ npImageEntries image, isU8Val v) →
      isUint8Rgb255 u ∧ lastDim u.data = 3) ∧
    (∀ (baseImage heatmap : Mat) (out : Img3),
      lungGradcamRenderTail baseImage heatmap = .ok out →
      out.dtype = .f32 ∧ ∀ v ∈ cubeEntries out.data, 0 ≤ v ∧ v ≤ 1) ∧
    (∀ overlay : Cube, (lungLimeFinalize overlay).dtype = .f32 ∧
      ∀ v ∈ cubeEntries (lungLimeFinalize overlay).data, 0 ≤ v ∧ v ≤ 1) := by
  refine ⟨?_, ?_, ?_, ?_, lungLimeFinalize_float01⟩
  · intro base heat cfg b3 hb hh
    obtain ⟨out, hok, hdt, _, hld, hvals⟩ := renderSignedOverlay_ok base heat cfg b3 hb hh
    exact ⟨out, hok, ⟨hdt, hvals⟩, hld⟩
  · intro base imp cfg b3 hb hh
    obtain ⟨out, hok, hdt, _, hld, hvals⟩ := renderUnsignedOverlay_ok base imp cfg b3 hb hh
    exact ⟨out, hok, ⟨hdt, hvals⟩, hld⟩
  · intro image u h hcons
    exact ensureRgbUint8_ok_u8 image u h hcons
  · intro baseImage heatmap out h
    exact lungGradcamRenderTail_float01 baseImage heatmap out h

set_option maxRecDepth 40000 in
unseal Rat.mul Rat.add Rat.sub Rat.inv in
/-- Witness for C2 amended on concrete 2x2 images and heatmaps. -/
theorem overlay_uint8_amended_witness :
    (∃ out, renderSignedOverlay (.gray [[0, 0], [0, 0]] .f32) [[0, 0], [0, 0]]
        {} = .ok out ∧ isUint8Rgb255 out ∧ lastDim out.data = 3) ∧
    (∃ out, renderUnsignedOverlay (.gray [[0, 0], [0, 0]] .f32) [[1, 0], [0, 1]]
        {} = .ok out ∧ isUint8Rgb255 out ∧ lastDim out.data = 3) ∧
    (isUint8Rgb255 { data := [[[120, 120, 120]]], dtype := Dty.u8 } ∧
      lastDim (Img3.mk [[[120, 120, 120]]] Dty.u8).data = 3) ∧
    ((Img3.mk [[[0, 0, 9 / 40]]] Dty.f32).dtype = .f32 ∧
      ∀ v ∈ cubeEntries (Img3.mk [[[0, 0, 9 / 40]]] Dty.f32).data, 0 ≤ v ∧ v ≤ 1) ∧
    ((lungLimeFinalize [[[2, 1 / 2, -1]]]).dtype = .f32 ∧
      ∀ v ∈ cubeEntries (lungLimeFinalize [[[2, 1 / 2, -1]]]).data, 0 ≤ v ∧ v ≤ 1) :=
  ⟨overlay_uint8_amended.1 (.gray [[0, 0], [0, 0]] .f32) [[0, 0], [0, 0]] {}
      { data := [[[0, 0, 0], [0, 0, 0]], [[0, 0, 0], [0, 0, 0]]], dtype := .f32 }
      (by rfl) (Or.inr (by decide)),
   overlay_uint8_amended.2.1 (.gray [[0, 0], [0, 0]] .f32) [[1, 0], [0, 1]] {}
      { data := [[[0, 0, 0], [0, 0, 0]], [[0, 0, 0], [0, 0, 0]]], dtype := .f32 }
      (by rfl) (Or.inr (by decide)),
   overlay_uint8_amended.2.2.1 (.gray [[120]] .u8)
      { data := [[[120, 120, 120]]], dtype := .u8 } (by rfl) (by decide),
   overlay_uint8_amended.2.2.2.1 [[0]] [[0]]
      { data := [[[0, 0, 9 / 40]]], dtype := .f32 } (by rfl),
   overlay_uint8_amended.2.2.2.2 [[[2, 1 / 2, -1]]]⟩

unseal Rat.mul Rat.add Rat.sub Rat.inv in
/-- C3 counterexample: the lung-service signed overlay renderer does NOT
resize a mismatched heat map — feeding a 1x1 heat map with a 2x2 RGB base
raises `ValueError("signed_heat must match spatial shape")` instead of
returning a 2x2 overlay. -/
theorem lung_render_shape_mismatch :
    lungRenderSignedOverlayRgb01
      { data := [[[0, 0, 0], [0, 0, 0]], [[0, 0, 0], [0, 0, 0]]], dtype := .f32 }
      [[0]] {} = .error (.valueError "signed_heat must match spatial shape") := by
  rfl

/-- C3 amended: the AUDIO-service renderers `render_signed_overlay` and
`render_unsigned_overlay` resize the heat map when needed and always return
an array whose first two dimensions equal the base image's; the
LUNG-service `render_signed_overlay_rgb01` has no resize step: it succeeds
(with shape preserved) exactly when the heat map's shape already equals the
base's spatial shape, and raises a ValueError otherwise. -/
theorem overlay_shape_preservation_amended :
    (∀ (base : NpImage) (heat : Mat) (cfg : OverlayConfig) (b3 : Img3),
      ensureRgb base = .ok b3 →
      ((heat.length ≠ 0 ∧ (heat.headD []).length ≠ 0) ∨
        matShape heat = cubeShape (asFloat01 b3).data) →
      ∃ out, renderSignedOverlay base heat cfg = .ok out ∧
        cubeShape out.data = npShape2 base) ∧
    (∀ (base : NpImage) (imp : Mat) (cfg : OverlayConfig) (b3 : Img3),
      ensureRgb base = .ok b3 →
      ((imp.length ≠ 0 ∧ (imp.headD []).length ≠ 0) ∨
        matShape imp = cubeShape (asFloat01 b3).data) →
      ∃ out, renderUnsignedOverlay base imp cfg = .ok out ∧
        cubeShape out.data = npShape2 base) ∧
    (∀ (baseRgb01 : Img3) (heat : Mat) (cfg : OverlayConfig),
      lastDim baseRgb01.data = 3 →
      0 < (cubeShape baseRgb01.data).1 → 0 < (cubeShape baseRgb01.data).2 →
      matShape heat = cubeShape baseRgb01.data →
      ∃ out, lungRenderSignedOverlayRgb01 baseRgb01 heat cfg = .ok out ∧
        cubeShape out.data = cubeShape baseRgb01.data) ∧
    (∀ (baseRgb01 : Img3) (heat : Mat) (cfg : OverlayConfig),
      lastDim baseRgb01.data = 3 →
      matShape heat ≠ cubeShape baseRgb01.data →
      lungRenderSignedOverlayRgb01 baseRgb01 heat cfg =
        .error (.valueError "signed_heat must match spatial shape")) := by
  refine ⟨?_, ?_, ?_, ?_⟩
  · intro base heat cfg b3 hb hh
    obtain ⟨out, hok, _, hsh, _, _⟩ := renderSignedOverlay_ok base heat cfg b3 hb hh
    exact ⟨out, hok, hsh⟩
  · intro base imp cfg b3 hb hh
    obtain ⟨out, hok, _, hsh, _, _⟩ := renderUnsignedOverlay_ok base imp cfg b3 hb hh
    exact ⟨out, hok, hsh⟩
  · intro baseRgb01 heat cfg h3 hH hW hsh
    obtain ⟨out, hok, _, hshape, _⟩ := lungRenderSigned_ok baseRgb01 heat cfg h3 hH hW hsh
    exact ⟨out, hok, hshape⟩
  · intro baseRgb01 heat cfg h3 hne
    exact lungRenderSigned_mismatch baseRgb01 heat cfg h3 hne

set_option maxRecDepth 40000 in
unseal Rat.mul Rat.add Rat.sub Rat.inv in
/-- Witness for C3 amended: the audio renderers on a 1x1 heat map over a
2x2 base (exercising the resize path), the lung renderer on a matching 2x2
pair and on a mismatched 1x1 heat map. -/
theorem overlay_shape_preservation_amended_witness :
    (∃ out, renderSignedOverlay (.gray [[0, 0], [0, 0]] .f32) [[1]] {} = .ok out ∧
      cubeShape out.data = npShape2 (.gray [[0, 0], [0, 0]] .f32)) ∧
    (∃ out, renderUnsignedOverlay (.gray [[0, 0], [0, 0]] .f32) [[1]] {} = .ok out ∧
      cubeShape out.data = npShape2 (.gray [[0, 0], [0, 0]] .f32)) ∧
    (∃ out, lungRenderSignedOverlayRgb01
        { data := [[[0, 0, 0], [0, 0, 0]], [[0, 0, 0], [0, 0, 0]]], dtype := .f32 }
        [[1, 0], [0, 1]] {} = .ok out ∧
      cubeShape out.data = cubeShape
        (Img3.mk [[[0, 0, 0], [0, 0, 0]], [[0, 0, 0], [0, 0, 0]]] Dty.f32).data) ∧
    lungRenderSignedOverlayRgb01
      { data := [[[0, 0, 0], [0, 0, 0]], [[0, 0, 0], [0, 0, 0]]], dtype := .f32 }
      [[0]] {} = .error (.valueError "signed_heat must match spatial shape") :=
  ⟨overlay_shape_preservation_amended.1 (.gray [[0, 0], [0, 0]] .f32) [[1]] {}
      { data := [[[0, 0, 0], [0, 0, 0]], [[0, 0, 0], [0, 0, 0]]], dtype := .f32 }
      (by rfl) (Or.inl ⟨by decide, by decide⟩),
   overlay_shape_preservation_amended.2.1 (.gray [[0, 0], [0, 0]] .f32) [[1]] {}
      { data := [[[0, 0, 0], [0, 0, 0]], [[0, 0, 0], [0, 0, 0]]], dtype := .f32 }
      (by rfl) (Or.inl ⟨by decide, by decide⟩),
   overlay_shape_preservation_amended.2.2.1
      { data := [[[0, 0, 0], [0, 0, 0]], [[0, 0, 0], [0, 0, 0]]], dtype := .f32 }
      [[1, 0], [0, 1]] {} (by decide) (by decide) (by decide) (by decide),
   overlay_shape_preservation_amended.2.2.2
      { data := [[[0, 0, 0], [0, 0, 0]], [[0, 0, 0], [0, 0, 0]]], dtype := .f32 }
      [[0]] {} (by decide) (by decide)⟩

/-- An in-range value passes through `np.clip` unchanged. -/
theorem npClip_eq_self (v lo hi : ℚ) (h1 : lo ≤ v) (h2 : v ≤ hi) :
    npClip v lo hi = v := by
  unfold npClip; rw [max_eq_right h1, min_eq_right h2]

set_option maxRecDepth 40000 in
unseal Rat.mul Rat.add Rat.sub Rat.inv in
/-- C10: in `signed_heat_to_rgba` a pixel whose clamped heat value is `≥ 0`
(including exactly-zero pixels) gets the positive color with alpha
`alpha_min + (alpha_max - alpha_min) * |value|`; a zero pixel gets alpha
exactly `alpha_min`; with the default config (`alpha_min = 0.05 > 0`),
rendering the all-zero signed heatmap over a black 2x2 base tints every
pixel with the positive color at opacity `alpha_min` (uint8 pixel
`[12, 1, 1]`), which differs from `ensure_rgb_uint8` of the base. -/
theorem signed_rgba_zero_alpha_min_tint :
    (∀ (amin amax : ℚ) (pos neg : ℚ × ℚ × ℚ) (v : ℚ),
      0 ≤ amin → amin ≤ amax → amax ≤ 1 → 0 ≤ npClip v (-1) 1 →
      signedPixelRgba amin amax pos neg v =
        [pos.1, pos.2.1, pos.2.2, amin + (amax - amin) * |npClip v (-1) 1|]) ∧
    (∀ (amin amax : ℚ) (pos neg : ℚ × ℚ × ℚ), 0 ≤ amin → amin ≤ 1 →
      signedPixelRgba amin amax pos neg 0 = [pos.1, pos.2.1, pos.2.2, amin]) ∧
    ({} : OverlayConfig).alpha_min = 1 / 20 ∧
    renderSignedOverlay (.gray [[0, 0], [0, 0]] .f32) [[0, 0], [0, 0]] {} =
      .ok { data := [[[12, 1, 1], [12, 1, 1]], [[12, 1, 1], [12, 1, 1]]],
            dtype := .u8 } ∧
    ensureRgbUint8 (.gray [[0, 0], [0, 0]] .f32) =
      .ok { data := [[[0, 0, 0], [0, 0, 0]], [[0, 0, 0], [0, 0, 0]]],
            dtype := .u8 } ∧
    Img3.mk [[[12, 1, 1], [12, 1, 1]], [[12, 1, 1], [12, 1, 1]]] Dty.u8 ≠
      Img3.mk [[[0, 0, 0], [0, 0, 0]], [[0, 0, 0], [0, 0, 0]]] Dty.u8 := by
  refine ⟨?_, ?_, rfl, by rfl, by rfl, by decide⟩
  · intro amin amax pos neg v h0 h01 h1 hv
    have hle1 : |npClip v (-1) 1| ≤ 1 := by
      rw [abs_le]
      exact ⟨lo_le_npClip v (-1) 1 (by norm_num), npClip_le_hi v (-1) 1⟩
    have habs0 : 0 ≤ |npClip v (-1) 1| := abs_nonneg _
    have hlo : 0 ≤ amin + (amax - amin) * |npClip v (-1) 1| := by
      nlinarith [mul_nonneg (sub_nonneg.mpr h01) habs0]
    have hhi : amin + (amax - amin) * |npClip v (-1) 1| ≤ 1 := by
      nlinarith [mul_le_mul_of_nonneg_left hle1 (sub_nonneg.mpr h01)]
    simp only [signedPixelRgba]
    rw [if_pos hv, npClip_eq_self _ 0 1 hlo hhi]
  · intro amin amax pos neg h0 h1
    have hc : npClip (0 : ℚ) (-1) 1 = 0 := by decide
    simp only [signedPixelRgba, hc, abs_zero, mul_zero, add_zero, if_pos le_rfl]
    rw [npClip_eq_self amin 0 1 h0 h1]

unseal Rat.mul Rat.add Rat.sub Rat.inv in
/-- Witness for C10 at the default alpha range and colors, with heat values
`1/2` and `0`. -/
theorem signed_rgba_zero_alpha_min_tint_witness :
    signedPixelRgba (1 / 20) (7 / 10) (1, 3 / 25, 3 / 25) (3 / 25, 3 / 25, 1)
        (1 / 2) =
      [1, 3 / 25, 3 / 25, 1 / 20 + (7 / 10 - 1 / 20) * |npClip (1 / 2) (-1) 1|] ∧
    signedPixelRgba (1 / 20) (7 / 10) (1, 3 / 25, 3 / 25) (3 / 25, 3 / 25, 1) 0 =
      [1, 3 / 25, 3 / 25, 1 / 20] :=
  ⟨signed_rgba_zero_alpha_min_tint.1 (1 / 20) (7 / 10) (1, 3 / 25, 3 / 25)
      (3 / 25, 3 / 25, 1) (1 / 2) (by norm_num) (by norm_num) (by norm_num)
      (by decide),
   signed_rgba_zero_alpha_min_tint.2.1 (1 / 20) (7 / 10) (1, 3 / 25, 3 / 25)
      (3 / 25, 3 / 25, 1) (by norm_num) (by norm_num)⟩
